import Mathlib

/-! hmapper: height raster to 24-bit RGB raster.

A shallow embedding of `src/main.c` and the properties of its decode / encode / write
pipeline.

Conventions of the embedding.

* `uint16` / `uint32` values are natural numbers; every place where the C code computes in
  32-bit unsigned arithmetic is wrapped explicitly (`wrap32`), and the conversion of such a
  value to `int` is `toInt32`.
* libtiff is the environment: what `TIFFGetField`, `TIFFNumberOfStrips`, `TIFFStripSize` and
  `TIFFReadEncodedStrip` hand to the program is the record `Source`; whether `XTIFFOpen`
  and `TIFFWriteEncodedStrip` succeed is given by `Env`.
* The output frame is a list of cells, `none` being a byte of the allocation that was never
  stored to.  A store outside the allocation, a float to integer conversion outside the range
  of `uint32` and a division by zero are undefined behaviour; they are reported as `none` /
  `Status.undefined`, never given a value.
* `float` is IEEE 754 binary32 and the product `fpBuf[i] * OUT_FP_MULTIPLIER` is rounded to
  binary32, round to nearest even (`FLT_EVAL_METHOD == 0`, the x86-64 and AArch64 ABIs).
* `assert` is active (the file does not define `NDEBUG`); `tsize_t` is the signed 64-bit type
  of libtiff 4 on LP64 targets; `_TIFFmalloc` succeeds.
* The tiled branch of `main` (lines 237-251), a stub that writes nothing, is not modelled:
  a run that enters it ends with `Status.tiled`.
-/

namespace HMapper

/-! ## Constants -/

/-- Macro `OUT_SAMPLEPERPIXEL`, line 11. -/
abbrev OUT_SAMPLEPERPIXEL : Nat := 3

/-- Macro `OUT_BITPERSAMPLE`, line 12. -/
abbrev OUT_BITPERSAMPLE : Nat := 8

/-- Macro `OUT_FP_MULTIPLIER`, line 14. -/
abbrev OUT_FP_MULTIPLIER : Nat := 100

/-- Value of `PLANARCONFIG_CONTIG` in libtiff's `tiff.h`. -/
abbrev PLANARCONFIG_CONTIG : Nat := 1

/-- Value of `SAMPLEFORMAT_UINT` in libtiff's `tiff.h`. -/
abbrev SAMPLEFORMAT_UINT : Nat := 1

/-- Value of `SAMPLEFORMAT_INT` in libtiff's `tiff.h`. -/
abbrev SAMPLEFORMAT_INT : Nat := 2

/-- Value of `SAMPLEFORMAT_IEEEFP` in libtiff's `tiff.h`. -/
abbrev SAMPLEFORMAT_IEEEFP : Nat := 3

/-- Value of `SAMPLEFORMAT_VOID` in libtiff's `tiff.h`. -/
abbrev SAMPLEFORMAT_VOID : Nat := 4

/-- Value of `ORIENTATION_TOPLEFT` in libtiff's `tiff.h`. -/
abbrev ORIENTATION_TOPLEFT : Nat := 1

/-- Value of `PHOTOMETRIC_RGB` in libtiff's `tiff.h`. -/
abbrev PHOTOMETRIC_RGB : Nat := 2

/-- Tag number of `TIFFTAG_IMAGEWIDTH`. -/
abbrev TIFFTAG_IMAGEWIDTH : Nat := 256

/-- Tag number of `TIFFTAG_IMAGELENGTH`. -/
abbrev TIFFTAG_IMAGELENGTH : Nat := 257

/-- Tag number of `TIFFTAG_BITSPERSAMPLE`. -/
abbrev TIFFTAG_BITSPERSAMPLE : Nat := 258

/-- Tag number of `TIFFTAG_PHOTOMETRIC`. -/
abbrev TIFFTAG_PHOTOMETRIC : Nat := 262

/-- Tag number of `TIFFTAG_ORIENTATION`. -/
abbrev TIFFTAG_ORIENTATION : Nat := 274

/-- Tag number of `TIFFTAG_SAMPLESPERPIXEL`. -/
abbrev TIFFTAG_SAMPLESPERPIXEL : Nat := 277

/-- Tag number of `TIFFTAG_ROWSPERSTRIP`. -/
abbrev TIFFTAG_ROWSPERSTRIP : Nat := 278

/-- Tag number of `TIFFTAG_PLANARCONFIG`. -/
abbrev TIFFTAG_PLANARCONFIG : Nat := 284

/-- Tag number of `TIFFTAG_GEOPIXELSCALE`. -/
abbrev TIFFTAG_GEOPIXELSCALE : Nat := 33550

/-- Tag number of `TIFFTAG_GEOTIEPOINTS`. -/
abbrev TIFFTAG_GEOTIEPOINTS : Nat := 33922

/-- Tag number of `TIFFTAG_GEOKEYDIRECTORY`. -/
abbrev TIFFTAG_GEOKEYDIRECTORY : Nat := 34735

/-- Tag number of `TIFFTAG_GEOASCIIPARAMS`. -/
abbrev TIFFTAG_GEOASCIIPARAMS : Nat := 34737

/-! ## Machine arithmetic -/

/-- Result of an arithmetic operation carried out in `uint32`. -/
def wrap32 (n : Nat) : Nat := n % 2 ^ 32

/-- Conversion of a `uint32` value to `int` (two's complement, 32 bits). -/
def toInt32 (n : Nat) : Int :=
  if n % 2 ^ 32 < 2 ^ 31 then ((n % 2 ^ 32 : Nat) : Int) else ((n % 2 ^ 32 : Nat) : Int) - 2 ^ 32

/-- Conversion of an `int` to `uint32`, as the usual arithmetic conversions do when the
other operand is a `uint32`. -/
def toUint32 (z : Int) : Nat := (z % 2 ^ 32).toNat

/-! ## Height encoder (lines 200-202 and 219-221) -/

/-- The three bytes stored for a pixel whose height is `currentPixelHeight`:
`(unsigned char)((h & 0x00FF0000) >> 16)`, `(unsigned char)((h & 0x0000FF00) >> 8)`,
`(unsigned char)(h & 0x000000FF)`. -/
def heightBytes (currentPixelHeight : Nat) : Nat × Nat × Nat :=
  (((currentPixelHeight &&& 0x00FF0000) >>> 16) % 256,
   ((currentPixelHeight &&& 0x0000FF00) >>> 8) % 256,
   (currentPixelHeight &&& 0x000000FF) % 256)

/-- The decoding the specification pairs with the encoder: `(b0<<16)|(b1<<8)|b2`. -/
def unpackHeight (b : Nat × Nat × Nat) : Nat :=
  (b.1 <<< 16) ||| (b.2.1 <<< 8) ||| b.2.2

/-! ## IEEE 754 binary32 -/

/-- A finite floating value `(-1)^neg * sig * 2^exp`. -/
structure FpVal where
  /-- Sign bit. -/
  neg : Bool
  /-- Integral significand. -/
  sig : Nat
  /-- Exponent of the unit of the significand. -/
  exp : Int
deriving DecidableEq, Repr

/-- The rational number a finite floating value denotes. -/
def FpVal.toRat (x : FpVal) : ℚ :=
  (if x.neg then -1 else 1) * (x.sig : ℚ) * (2 : ℚ) ^ x.exp

/-- The value of a binary32 bit pattern (1 sign bit, 8 exponent bits, 23 fraction bits);
`none` for the infinities and the NaNs. -/
def f32Decode (w : Nat) : Option FpVal :=
  let s : Nat := w / 2 ^ 31 % 2
  let e : Nat := w / 2 ^ 23 % 256
  let m : Nat := w % 2 ^ 23
  if e = 255 then none
  else if e = 0 then some ⟨s = 1, m, -149⟩
  else some ⟨s = 1, 2 ^ 23 + m, (e : Int) - 150⟩

/-- Number of binary digits of `n`, by halving at most `fuel` times. -/
def bitLengthAux : Nat → Nat → Nat
  | 0, _ => 0
  | fuel + 1, n => if n = 0 then 0 else bitLengthAux fuel (n / 2) + 1

/-- Number of binary digits of `n` (the fuel `n` is never exhausted). -/
def bitLength (n : Nat) : Nat := bitLengthAux n n

/-- Rounding of an exact finite value to binary32, round to nearest, ties to even: the
significand keeps 24 bits and the exponent is at least -149; `none` when the rounded value
overflows to an infinity. -/
def f32Round (x : FpVal) : Option FpVal :=
  let k : Nat := (max ((bitLength x.sig : Int) - 24) (-149 - x.exp)).toNat
  let q : Nat := x.sig / 2 ^ k
  let r : Nat := x.sig % 2 ^ k
  let q' : Nat := if 2 ^ k < 2 * r ∨ (2 * r = 2 ^ k ∧ q % 2 = 1) then q + 1 else q
  if 2 ^ 128 ≤ q' * 2 ^ (x.exp + k).toNat then none else some ⟨x.neg, q', x.exp + k⟩

/-- The binary32 product `f * c` of the float with bit pattern `w` and the `int` constant
`c` (converted to `float` exactly, `c < 2^24`); `none` when the product is an infinity or a
NaN. -/
def f32MulInt (w c : Nat) : Option FpVal :=
  (f32Decode w).bind fun x => f32Round ⟨x.neg, x.sig * c, x.exp⟩

/-- The integral part of the magnitude of a finite floating value. -/
def fpIntegralPart (x : FpVal) : Nat :=
  if 0 ≤ x.exp then x.sig * 2 ^ x.exp.toNat else x.sig / 2 ^ (-x.exp).toNat

/-- The conversion `(uint32)x` of a finite floating value: the fractional part is discarded;
`none` (undefined behaviour) when the integral part is not a `uint32`. -/
def fpToUint32 (x : FpVal) : Option Nat :=
  let t : Nat := fpIntegralPart x
  if x.neg then (if t = 0 then some 0 else none)
  else if t < 2 ^ 32 then some t else none

/-- Line 216: `currentPixelHeight = (uint32)(fpBuf[i] * OUT_FP_MULTIPLIER)` for the sample
with bit pattern `w`. -/
def fpHeight (w : Nat) : Option Nat :=
  (f32MulInt w OUT_FP_MULTIPLIER).bind fpToUint32

/-- The three bytes the IEEE-float 4-byte branch stores for the sample with bit pattern `w`
(lines 216-221). -/
def fpBytes (w : Nat) : Option (Nat × Nat × Nat) :=
  (fpHeight w).map heightBytes

/-- Truncation of a rational toward zero. -/
def truncRat (q : ℚ) : Int := if 0 ≤ q then ⌊q⌋ else ⌈q⌉

/-! ## The source raster as libtiff presents it -/

/-- What libtiff hands to `main` for the opened source (lines 142-159, 179, 186). -/
structure Source where
  /-- Variable `imageWidth`, a `uint32`. -/
  imageWidth : Nat
  /-- Variable `imageLength`, a `uint32`. -/
  imageLength : Nat
  /-- Variable `bitPerSample`, a `uint16`. -/
  bitPerSample : Nat
  /-- Variable `planarConfig`, a `uint16`. -/
  planarConfig : Nat
  /-- Variable `samplePerPixel`, a `uint16`. -/
  samplePerPixel : Nat
  /-- Variable `sampleFormat`, a `uint16`. -/
  sampleFormat : Nat
  /-- Variable `rowsPerStrip`, a `uint32`. -/
  rowsPerStrip : Nat
  /-- Result of `TIFFNumberOfStrips(inTif)`, a `uint32`. -/
  stripsNumber : Nat
  /-- Result of `TIFFNumberOfTiles(inTif)`, a `uint32`. -/
  tilesNumber : Nat
  /-- Result of `TIFFStripSize(inTif)` as stored in the `uint32` variable `stripSize`. -/
  stripSize : Nat
  /-- Word `stripWord s i` is the 32-bit word at index `i` of `buf` after
  `TIFFReadEncodedStrip(inTif, s, buf, stripSize)`. -/
  stripWord : Nat → Nat → Nat

/-- The fields of a source fit their C types. -/
def Source.InRange (src : Source) : Prop :=
  src.imageWidth < 2 ^ 32 ∧ src.imageLength < 2 ^ 32 ∧ src.bitPerSample < 2 ^ 16 ∧
  src.planarConfig < 2 ^ 16 ∧ src.samplePerPixel < 2 ^ 16 ∧ src.sampleFormat < 2 ^ 16 ∧
  src.rowsPerStrip < 2 ^ 32 ∧ src.stripsNumber < 2 ^ 32 ∧ src.tilesNumber < 2 ^ 32 ∧
  src.stripSize < 2 ^ 32 ∧ ∀ s i, src.stripWord s i < 2 ^ 32

/-- Line 160: `bytePerSample = ceil(bitPerSample / 8)`.  Both operands of the division are
integers, so the quotient is the integer quotient; it is converted to `double`, passed to
`ceil`, and the result is converted to `uint16`. -/
def bytePerSample (bitPerSample : Nat) : Nat :=
  (Int.toNat ⌈((bitPerSample / 8 : Nat) : ℚ)⌉) % 2 ^ 16

/-- Line 180: `int sampleOffset = stripSize / bytePerSample` (for `bytePerSample ≠ 0`). -/
def sampleOffset (src : Source) : Int :=
  toInt32 (src.stripSize / bytePerSample src.bitPerSample)

/-- Lines 199 and 218: `int outOffset = (strip * sampleOffset + i) * 3`, computed in
`uint32` because `strip` is a `uint32`. -/
def outOffset (strip : Nat) (sampleOffset i : Int) : Int :=
  toInt32 (wrap32 (wrap32 (wrap32 (strip * toUint32 sampleOffset) + toUint32 i) * 3))

/-! ## The decode loop (lines 184-232) -/

/-- A store `outImageData[idx] = byte`; the byte is `none` when the expression that
computes it has no defined value. -/
abbrev Store := Int × Option Nat

/-- Lines 199-202 and 218-221: the three stores of one sample. -/
def pixelStores (off : Int) (height : Option Nat) : List Store :=
  [(off, height.map fun h => (heightBytes h).1),
   (off + 1, height.map fun h => (heightBytes h).2.1),
   (off + 2, height.map fun h => (heightBytes h).2.2)]

/-- The stores of one iteration of the strip loop (lines 188-230), in program order. -/
def stripStores (src : Source) (strip : Nat) : List Store :=
  let bps := bytePerSample src.bitPerSample
  let so := sampleOffset src
  if src.planarConfig = PLANARCONFIG_CONTIG then
    if src.sampleFormat = SAMPLEFORMAT_UINT ∧ bps = 4 then
      (List.range so.toNat).flatMap fun i =>
        pixelStores (outOffset strip so i) (some (src.stripWord strip i))
    else if src.sampleFormat = SAMPLEFORMAT_UINT ∧ bps = 2 then []
    else if src.sampleFormat = SAMPLEFORMAT_INT then []
    else if src.sampleFormat = SAMPLEFORMAT_IEEEFP ∧ bps = 4 then
      (List.range so.toNat).flatMap fun i =>
        pixelStores (outOffset strip so i) (fpHeight (src.stripWord strip i))
    else if src.sampleFormat = SAMPLEFORMAT_IEEEFP ∧ bps = 8 then []
    else if src.sampleFormat = SAMPLEFORMAT_VOID then []
    else []
  else []

/-- The stores of the whole decode loop `for (strip = 0; strip < stripsNumber; strip++)`,
in program order. -/
def decodeStores (src : Source) : List Store :=
  (List.range src.stripsNumber).flatMap (stripStores src)

/-- The output frame: one cell per allocated byte, `none` while never stored to. -/
abbrev Frame := List (Option Nat)

/-- Line 173: the number of bytes requested for `outImageData`,
`imageWidth * imageLength * OUT_SAMPLEPERPIXEL * sizeof(unsigned char)`, the first two
products being `uint32` products. -/
def allocSize (imageWidth imageLength : Nat) : Nat :=
  wrap32 (wrap32 (imageWidth * imageLength) * OUT_SAMPLEPERPIXEL) * 1

/-- One store into the frame; `none` when the byte has no defined value, when the index is
outside the allocation or when it is not an `int`. -/
def storeByte (fr : Frame) (st : Store) : Option Frame :=
  match st.2 with
  | none => none
  | some b =>
    if 0 ≤ st.1 ∧ st.1 < fr.length ∧ st.1 < 2 ^ 31 then some (fr.set st.1.toNat (some b))
    else none

/-- The frame after a sequence of stores. -/
def runStores : Frame → List Store → Option Frame
  | fr, [] => some fr
  | fr, st :: rest => (storeByte fr st).bind fun fr' => runStores fr' rest

/-- The frame after the decode loop, starting from the fresh allocation of line 173. -/
def decodeFrame (src : Source) : Option Frame :=
  runStores (List.replicate (allocSize src.imageWidth src.imageLength) none) (decodeStores src)

/-! ## The writer (lines 63-103) and `main` -/

/-- Observable actions of a run. -/
inductive Event where
  /-- Call `printf("Usage: ...")`, line 107. -/
  | printUsage
  /-- Call `printf("W: %d, H: %d\n", ...)`, line 162. -/
  | printGeometry
  /-- Call `printf("BPS: ...")`, line 163. -/
  | printLayout
  /-- Call `printf("%d\n", stripByteCounts[0])`, line 177. -/
  | printStripBytes
  /-- Call `printf("STRIPPED - ...")`, line 181. -/
  | printStripped
  /-- Call `TIFFReadEncodedStrip(inTif, strip, buf, stripSize)`, line 186. -/
  | readStrip (strip : Nat)
  /-- Call `XTIFFOpen(outFile, "w+")` that returns a handle, line 65. -/
  | openOutput
  /-- Call `printf("Cannot create %s\n", outFile)`, line 101. -/
  | printCannotCreate
  /-- Call `TIFFSetField(outTif, tag, value)`, lines 67-74. -/
  | setField (tag value : Nat)
  /-- Call `TIFFSetField(outTif, tag, ...)` of a block read from the source, lines 76-79. -/
  | setGeoField (tag : Nat)
  /-- Call `TIFFWriteEncodedStrip(outTif, row, buf, lineBytes)`, line 91, with the bytes of
  `buf`. -/
  | writeStrip (row : Nat) (data : Frame)
  /-- Call `printf("- WRITE BREAK -\n")`, line 93. -/
  | printWriteBreak
  /-- Call `XTIFFClose(outTif)`, line 99. -/
  | closeOutput
deriving DecidableEq, Repr

/-- Lines 89-96: the row loop, `n` rows left, next row `row`.  `none` when the `memcpy` of
line 90 reads outside the allocation. -/
def writeRows (writeOk : Nat → Bool) (outImageData : Frame) (lineBytes : Nat) :
    Nat → Nat → Option (List Event)
  | 0, _ => some []
  | n + 1, row =>
    if row * lineBytes + lineBytes ≤ outImageData.length then
      let buf := (outImageData.drop (row * lineBytes)).take lineBytes
      if writeOk row then
        (writeRows writeOk outImageData lineBytes n (row + 1)).map
          fun evs => Event.writeStrip row buf :: evs
      else some [Event.writeStrip row buf, Event.printWriteBreak]
    else none

/-- Lines 67-79: the tags set on the destination. -/
def setOutputTags (imageWidth imageLength rowsPerStrip : Nat) : List Event :=
  [Event.setField TIFFTAG_IMAGEWIDTH imageWidth,
   Event.setField TIFFTAG_IMAGELENGTH imageLength,
   Event.setField TIFFTAG_SAMPLESPERPIXEL OUT_SAMPLEPERPIXEL,
   Event.setField TIFFTAG_BITSPERSAMPLE OUT_BITPERSAMPLE,
   Event.setField TIFFTAG_ORIENTATION ORIENTATION_TOPLEFT,
   Event.setField TIFFTAG_PLANARCONFIG PLANARCONFIG_CONTIG,
   Event.setField TIFFTAG_PHOTOMETRIC PHOTOMETRIC_RGB,
   Event.setField TIFFTAG_ROWSPERSTRIP rowsPerStrip,
   Event.setGeoField TIFFTAG_GEOPIXELSCALE,
   Event.setGeoField TIFFTAG_GEOTIEPOINTS,
   Event.setGeoField TIFFTAG_GEOKEYDIRECTORY,
   Event.setGeoField TIFFTAG_GEOASCIIPARAMS]

/-- Lines 63-103.  `outOpens` tells whether `XTIFFOpen(outFile, "w+")` succeeds and
`writeOk row` whether `TIFFWriteEncodedStrip` of strip `row` returns a non-negative value;
`imageWidth` and `imageLength` are the globals of lines 51-52.  The function returns
`void`: its only result is the actions it performs. -/
def writeOutputStrips (outOpens : Bool) (writeOk : Nat → Bool) (imageWidth imageLength : Nat)
    (outImageData : Frame) (_stripSize rowsPerStrip : Nat) : Option (List Event) :=
  if outOpens then
    let lineBytes := wrap32 (OUT_SAMPLEPERPIXEL * imageWidth)
    (writeRows writeOk outImageData lineBytes imageLength 0).map fun evs =>
      Event.openOutput :: setOutputTags imageWidth imageLength rowsPerStrip ++ evs ++
        [Event.closeOutput]
  else some [Event.printCannotCreate]

/-- The strips handed to `TIFFWriteEncodedStrip`, in the order of the calls. -/
def stripWrites : List Event → List (Nat × Frame)
  | [] => []
  | Event.writeStrip row data :: evs => (row, data) :: stripWrites evs
  | _ :: evs => stripWrites evs

/-- The environment of a run of `main`. -/
structure Env where
  /-- The argument count `argc`. -/
  argc : Nat
  /-- Whether `XTIFFOpen(inFile, "r")` returns a handle. -/
  inOpens : Bool
  /-- The opened source. -/
  src : Source
  /-- Whether `XTIFFOpen(outFile, "w+")` returns a handle. -/
  outOpens : Bool
  /-- Whether `TIFFWriteEncodedStrip` of strip `row` succeeds. -/
  writeOk : Nat → Bool

/-- How a run ends. -/
inductive Status where
  /-- The function `main` returns `code`. -/
  | exit (code : Int)
  /-- An `assert` fails and the process is aborted. -/
  | aborted
  /-- The run has undefined behaviour. -/
  | undefined
  /-- Control enters the tiled branch of lines 237-251, which is left out of the model. -/
  | tiled
deriving DecidableEq, Repr

/-- The result of a run: how it ends and the actions performed up to there. -/
structure Run where
  /-- How the run ends. -/
  status : Status
  /-- The actions performed, in order. -/
  events : List Event
deriving DecidableEq, Repr

/-- Lines 105-264. -/
def main (env : Env) : Run :=
  if env.argc ≠ 3 then ⟨Status.exit (-1), [Event.printUsage]⟩
  else if env.inOpens = false then ⟨Status.exit 0, []⟩
  else
    let src := env.src
    let pre := [Event.printGeometry, Event.printLayout]
    if src.samplePerPixel ≠ 1 then ⟨Status.aborted, pre⟩
    else if src.rowsPerStrip ≠ 1 then ⟨Status.aborted, pre⟩
    else if 0 < src.stripsNumber then
      if bytePerSample src.bitPerSample = 0 then
        ⟨Status.undefined, pre ++ [Event.printStripBytes]⟩
      else
        let reads := (List.range src.stripsNumber).map Event.readStrip
        let decoded := pre ++ [Event.printStripBytes, Event.printStripped] ++ reads
        match decodeFrame src with
        | none => ⟨Status.undefined, decoded⟩
        | some outImageData =>
          match writeOutputStrips env.outOpens env.writeOk src.imageWidth src.imageLength
              outImageData src.stripSize src.rowsPerStrip with
          | none => ⟨Status.undefined, decoded⟩
          | some evs => ⟨Status.exit 0, decoded ++ evs⟩
    else if 0 < src.tilesNumber then ⟨Status.tiled, pre⟩
    else ⟨Status.exit 0, pre⟩

/-! ## Vocabulary of the statements -/

/-- The height the decode loop computes for sample `i` of strip `s` in its two implemented
branches: the sample itself (uint32 branch) or the converted product (float branch). -/
def sampleHeight (src : Source) (s i : Nat) : Option Nat :=
  if src.sampleFormat = SAMPLEFORMAT_UINT then some (src.stripWord s i)
  else fpHeight (src.stripWord s i)

/-- Byte `k` (0, 1 or 2) of the triple stored for the height `h`. -/
def byteAt (h k : Nat) : Nat :=
  if k = 0 then (heightBytes h).1 else if k = 1 then (heightBytes h).2.1 else (heightBytes h).2.2

/-- The store that fills byte `j` of a frame whose rows hold `so` samples. -/
def storeAt (src : Source) (so j : Nat) : Store :=
  ((j : Int), (sampleHeight src (j / 3 / so) (j / 3 % so)).map fun h => byteAt h (j % 3))

/-- The property C1 states of a source: the decode loop is defined and leaves, for every
strip `s < stripsNumber` and sample `i < samplesPerStrip`, the bytes `(v>>16)&0xFF`,
`(v>>8)&0xFF`, `v&0xFF` of sample `v = stripWord s i` at the byte offsets
`(s*samplesPerStrip + i)*3`, `+1`, `+2` of the output frame. -/
def DecodesUint32 (src : Source) : Prop :=
  ∃ fr : Frame, decodeFrame src = some fr ∧
    ∀ s i : Nat, s < src.stripsNumber → (i : Int) < sampleOffset src →
      fr[(s * (sampleOffset src).toNat + i) * 3]? =
        some (some ((src.stripWord s i >>> 16) &&& 0xFF)) ∧
      fr[(s * (sampleOffset src).toNat + i) * 3 + 1]? =
        some (some ((src.stripWord s i >>> 8) &&& 0xFF)) ∧
      fr[(s * (sampleOffset src).toNat + i) * 3 + 2]? =
        some (some (src.stripWord s i &&& 0xFF))

/-- Row `r` of a frame whose rows are `lineBytes` bytes long. -/
def frameRow (frame : Frame) (lineBytes r : Nat) : Frame :=
  (frame.drop (r * lineBytes)).take lineBytes

/-! ## Concrete rasters -/

/-- A 2x2 single-band strip source of 32-bit samples, one row per strip. -/
def raster2x2 (sampleFormat bitPerSample stripSize : Nat) (words : List (List Nat)) : Source :=
  { imageWidth := 2, imageLength := 2, bitPerSample := bitPerSample,
    planarConfig := PLANARCONFIG_CONTIG, samplePerPixel := 1, sampleFormat := sampleFormat,
    rowsPerStrip := 1, stripsNumber := 2, tilesNumber := 0, stripSize := stripSize,
    stripWord := fun s i => (words.getD s []).getD i 0 }

/-- Scenario A: unsigned 32-bit samples 0, 256, 65536, 16777215. -/
def scenarioA : Source :=
  raster2x2 SAMPLEFORMAT_UINT 32 8 [[0, 256], [65536, 16777215]]

/-- Scenario B: the binary32 samples 0.0, 1.0, 655.35 and 167772.14 (bit patterns
0x00000000, 0x3F800000, 0x4423D666, 0x4823D709). -/
def scenarioB : Source :=
  raster2x2 SAMPLEFORMAT_IEEEFP 32 8 [[0x00000000, 0x3F800000], [0x4423D666, 0x4823D709]]

/-- Scenario D: a 2x2 raster of unsigned 16-bit samples. -/
def scenarioD : Source :=
  raster2x2 SAMPLEFORMAT_UINT 16 4 [[0, 0], [0, 0]]

/-- A 65536 x 65536 raster of unsigned 32-bit samples, all zero, one row per strip. -/
def hugeSource : Source :=
  { imageWidth := 65536, imageLength := 65536, bitPerSample := 32,
    planarConfig := PLANARCONFIG_CONTIG, samplePerPixel := 1,
    sampleFormat := SAMPLEFORMAT_UINT, rowsPerStrip := 1, stripsNumber := 65536,
    tilesNumber := 0, stripSize := 262144, stripWord := fun _ _ => 0 }

/-! ## Height encoder: byte extraction and round trip -/

theorem and_shiftRight_distrib (v m k : Nat) : (v &&& m) >>> k = (v >>> k) &&& (m >>> k) := by
  apply Nat.eq_of_testBit_eq
  intro i
  simp [Nat.testBit_shiftRight, Nat.testBit_and]

theorem mask_high (v : Nat) : (v &&& 0x00FF0000) >>> 16 = v / 65536 % 256 := by
  rw [and_shiftRight_distrib]
  have h : (0x00FF0000 : Nat) >>> 16 = 2 ^ 8 - 1 := by decide
  rw [h, Nat.and_pow_two_sub_one_eq_mod, Nat.shiftRight_eq_div_pow]

theorem mask_mid (v : Nat) : (v &&& 0x0000FF00) >>> 8 = v / 256 % 256 := by
  rw [and_shiftRight_distrib]
  have h : (0x0000FF00 : Nat) >>> 8 = 2 ^ 8 - 1 := by decide
  rw [h, Nat.and_pow_two_sub_one_eq_mod, Nat.shiftRight_eq_div_pow]

theorem mask_low (v : Nat) : v &&& 0x000000FF = v % 256 := by
  have h : (0x000000FF : Nat) = 2 ^ 8 - 1 := by decide
  rw [h, Nat.and_pow_two_sub_one_eq_mod]

theorem heightBytes_eq (v : Nat) :
    heightBytes v = (v / 65536 % 256, v / 256 % 256, v % 256) := by
  simp only [heightBytes, mask_high, mask_mid, mask_low, Nat.mod_mod]

theorem unpackHeight_eq (a b c : Nat) (hb : b < 256) (hc : c < 256) :
    unpackHeight (a, b, c) = a * 65536 + b * 256 + c := by
  have h1 : b <<< 8 ||| c = b * 256 + c := by
    rw [Nat.shiftLeft_eq, Nat.mul_comm, ← Nat.mul_add_lt_is_or (by simpa using hc)]
  have h2 : b * 256 + c < 2 ^ 16 := by omega
  simp only [unpackHeight]
  rw [Nat.or_assoc, h1, Nat.shiftLeft_eq, Nat.mul_comm a, ← Nat.mul_add_lt_is_or h2]
  omega

theorem unpackHeight_heightBytes (v : Nat) : unpackHeight (heightBytes v) = v % 2 ^ 24 := by
  rw [heightBytes_eq, unpackHeight_eq _ _ _ (Nat.mod_lt _ (by decide)) (Nat.mod_lt _ (by decide))]
  omega

/-- C2: for every 32-bit unsigned value `v`, packing the three bytes the uint32 branch
emits for `v` as `(b0<<16)|(b1<<8)|b2` gives `v & 0xFFFFFF`; hence two values below `2^24`
with the same three bytes are equal. -/
theorem uint32_encoding_round_trip (v : Nat) (_hv : v < 2 ^ 32) :
    unpackHeight (heightBytes v) = v &&& 0xFFFFFF ∧
    ∀ u : Nat, u < 2 ^ 24 → v < 2 ^ 24 → heightBytes u = heightBytes v → u = v := by
  have hm : (0xFFFFFF : Nat) = 2 ^ 24 - 1 := by decide
  refine ⟨?_, ?_⟩
  · rw [unpackHeight_heightBytes, hm, Nat.and_pow_two_sub_one_eq_mod]
  · intro u hu hv24 h
    have hu' := unpackHeight_heightBytes u
    have hv' := unpackHeight_heightBytes v
    rw [h, hv'] at hu'
    rw [Nat.mod_eq_of_lt hu, Nat.mod_eq_of_lt hv24] at hu'
    exact hu'.symm

/-- Witness of C2 at `v = 0xABCDEF`. -/
theorem uint32_encoding_round_trip_witness :
    unpackHeight (heightBytes 0xABCDEF) = 0xABCDEF &&& 0xFFFFFF ∧
    ∀ u : Nat, u < 2 ^ 24 → 0xABCDEF < 2 ^ 24 →
      heightBytes u = heightBytes 0xABCDEF → u = 0xABCDEF :=
  uint32_encoding_round_trip 0xABCDEF (by decide)

/-! ## Float to integer conversion -/

theorem fpIntegralPart_eq_floor (x : FpVal) :
    fpIntegralPart x = ⌊(x.sig : ℚ) * (2 : ℚ) ^ x.exp⌋₊ := by
  unfold fpIntegralPart
  split
  · rename_i h
    obtain ⟨n, hn⟩ := Int.eq_ofNat_of_zero_le h
    rw [hn]
    simp only [Int.toNat_ofNat, zpow_natCast]
    have : (x.sig : ℚ) * 2 ^ n = ((x.sig * 2 ^ n : ℕ) : ℚ) := by push_cast; ring
    rw [this, Nat.floor_natCast]
  · rename_i h
    have h' : 0 ≤ -x.exp := by omega
    obtain ⟨n, hn⟩ := Int.eq_ofNat_of_zero_le h'
    have he : x.exp = -(n : Int) := by omega
    rw [hn, he]
    simp only [Int.toNat_ofNat, zpow_neg, zpow_natCast]
    have : (x.sig : ℚ) * ((2 : ℚ) ^ n)⁻¹ = (x.sig : ℚ) / ((2 ^ n : ℕ) : ℚ) := by
      push_cast; ring
    rw [this, Nat.floor_div_eq_div]

theorem FpVal.toRat_pos (x : FpVal) (h : x.neg = false) :
    x.toRat = (x.sig : ℚ) * (2 : ℚ) ^ x.exp := by
  simp [FpVal.toRat, h]

theorem FpVal.toRat_neg (x : FpVal) (h : x.neg = true) :
    x.toRat = -((x.sig : ℚ) * (2 : ℚ) ^ x.exp) := by
  simp [FpVal.toRat, h]

theorem FpVal.mag_nonneg (x : FpVal) : 0 ≤ (x.sig : ℚ) * (2 : ℚ) ^ x.exp := by
  positivity

/-- Inside the range where C defines the conversion, `(uint32)x` is the truncation toward
zero of the value of `x`. -/
theorem fpToUint32_eq_trunc (x : FpVal) (hlo : -1 < x.toRat) (hhi : x.toRat < 2 ^ 32) :
    fpToUint32 x = some (truncRat x.toRat).toNat := by
  have hm := x.mag_nonneg
  unfold fpToUint32
  simp only
  rw [fpIntegralPart_eq_floor]
  cases hn : x.neg
  · rw [x.toRat_pos hn] at hhi ⊢
    have ht : truncRat ((x.sig : ℚ) * (2 : ℚ) ^ x.exp) = ⌊(x.sig : ℚ) * (2 : ℚ) ^ x.exp⌋ := by
      simp [truncRat, hm]
    have hlt : ⌊(x.sig : ℚ) * (2 : ℚ) ^ x.exp⌋₊ < 2 ^ 32 := by
      have := Nat.floor_le hm
      have h2 : ((⌊(x.sig : ℚ) * (2 : ℚ) ^ x.exp⌋₊ : ℕ) : ℚ) < ((2 ^ 32 : ℕ) : ℚ) := by
        push_cast; linarith
      exact_mod_cast h2
    have hlt' : ⌊(x.sig : ℚ) * (2 : ℚ) ^ x.exp⌋₊ < 4294967296 := by simpa using hlt
    simp [ht, hlt', Int.floor_toNat]
  · rw [x.toRat_neg hn] at hlo ⊢
    have hlt1 : (x.sig : ℚ) * (2 : ℚ) ^ x.exp < 1 := by linarith
    have hz : ⌊(x.sig : ℚ) * (2 : ℚ) ^ x.exp⌋₊ = 0 := by
      rw [Nat.floor_eq_zero]; exact hlt1
    have ht : (truncRat (-((x.sig : ℚ) * (2 : ℚ) ^ x.exp))).toNat = 0 := by
      unfold truncRat
      split
      · rename_i h0
        have : (x.sig : ℚ) * (2 : ℚ) ^ x.exp = 0 := by linarith
        simp [this]
      · have : ⌈-((x.sig : ℚ) * (2 : ℚ) ^ x.exp)⌉ ≤ 0 := by
          rw [Int.ceil_le]; simp; exact hm
        omega
    simp [hz, ht]

/-- C4 (amended): for every single-precision sample whose single-precision product
`f*100` lies in the range where the conversion to `uint32` is defined (`-1 < f*100 < 2^32`),
the IEEE-float 4-byte branch emits the big-endian bytes of the low 24 bits of
`trunc(f*100)`; nothing is clamped.  The Scenario B raster `[0.0, 1.0, 655.35, 167772.14]`
yields the pixels `(0,0,0)`, `(0,0,100)`, `(0,255,254)`, `(255,255,254)`. -/
theorem float_encoding_keeps_low_24_bits (w : Nat) (p : FpVal)
    (hp : f32MulInt w OUT_FP_MULTIPLIER = some p) (hlo : -1 < p.toRat)
    (hhi : p.toRat < 2 ^ 32) :
    fpBytes w = some ((truncRat p.toRat).toNat % 2 ^ 24 / 2 ^ 16,
                      (truncRat p.toRat).toNat % 2 ^ 24 / 2 ^ 8 % 2 ^ 8,
                      (truncRat p.toRat).toNat % 2 ^ 24 % 2 ^ 8) ∧
    decodeFrame scenarioB =
      some ([0, 0, 0, 0, 0, 100, 0, 255, 254, 255, 255, 254].map some) := by
  refine ⟨?_, by decide⟩
  have hc := fpToUint32_eq_trunc p hlo hhi
  simp only [fpBytes, fpHeight, hp, hc, Option.some_bind, Option.map_some', heightBytes_eq,
    Option.some.injEq, Prod.mk.injEq]
  refine ⟨?_, ?_, ?_⟩ <;> omega

/-- Witness of C4 (amended) at `f = 262144.0`, whose product is `26214400 = 0x1900000`. -/
theorem float_encoding_keeps_low_24_bits_witness :
    fpBytes 0x48800000 =
      some ((truncRat (FpVal.mk false 13107200 1).toRat).toNat % 2 ^ 24 / 2 ^ 16,
            (truncRat (FpVal.mk false 13107200 1).toRat).toNat % 2 ^ 24 / 2 ^ 8 % 2 ^ 8,
            (truncRat (FpVal.mk false 13107200 1).toRat).toNat % 2 ^ 24 % 2 ^ 8) ∧
    decodeFrame scenarioB =
      some ([0, 0, 0, 0, 0, 100, 0, 255, 254, 255, 255, 254].map some) :=
  float_encoding_keeps_low_24_bits 0x48800000 ⟨false, 13107200, 1⟩ (by decide)
    (by norm_num [FpVal.toRat]) (by norm_num [FpVal.toRat])

/-- C4 as stated fails: `f = 262144.0` has `f*100 = 26214400 >= 2^24`, yet the float branch
emits `(144, 0, 0)`, not `(255, 255, 255)`; and the Scenario B raster does not decode to
`(0,0,0)`, `(0,0,100)`, `(0,255,255)`, `(255,255,255)`. -/
theorem float_encoding_does_not_clamp :
    (∃ x : FpVal, f32Decode 0x48800000 = some x ∧ (2 : ℚ) ^ 24 ≤ x.toRat * 100) ∧
    fpBytes 0x48800000 = some (144, 0, 0) ∧
    fpBytes 0x48800000 ≠ some (255, 255, 255) ∧
    decodeFrame scenarioB ≠
      some ([0, 0, 0, 0, 0, 100, 0, 255, 255, 255, 255, 255].map some) := by
  refine ⟨⟨⟨false, 8388608, -5⟩, by decide, by norm_num [FpVal.toRat]⟩, by decide, by decide,
    by decide⟩

/-! ## Sample width -/

theorem bytePerSample_eq (b : Nat) (hb : b < 2 ^ 16) : bytePerSample b = b / 8 := by
  unfold bytePerSample
  rw [Int.ceil_natCast, Int.toNat_ofNat]
  omega

/-! ## Stores into the frame -/

theorem runStores_append (fr : Frame) (l₁ l₂ : List Store) :
    runStores fr (l₁ ++ l₂) = (runStores fr l₁).bind fun fr' => runStores fr' l₂ := by
  induction l₁ generalizing fr with
  | nil => simp [runStores]
  | cons st rest ih =>
    simp only [List.cons_append, runStores]
    cases storeByte fr st with
    | none => simp
    | some fr' => simp [ih]

theorem storeByte_length (fr fr' : Frame) (st : Store) (h : storeByte fr st = some fr') :
    fr'.length = fr.length := by
  unfold storeByte at h
  split at h
  · simp at h
  · split_ifs at h
    simp only [Option.some.injEq] at h
    rw [← h, List.length_set]

theorem runStores_length (l : List Store) (fr fr' : Frame) (h : runStores fr l = some fr') :
    fr'.length = fr.length := by
  induction l generalizing fr with
  | nil => simp [runStores] at h; rw [h]
  | cons st rest ih =>
    simp only [runStores] at h
    cases hs : storeByte fr st with
    | none => simp [hs] at h
    | some fr1 =>
      simp only [hs, Option.some_bind] at h
      rw [ih fr1 h, storeByte_length fr fr1 st hs]

theorem runStores_nil_frame (l : List Store) (hl : l ≠ []) : runStores [] l = none := by
  cases l with
  | nil => exact absurd rfl hl
  | cons st rest =>
    simp only [runStores]
    have : storeByte [] st = none := by
      unfold storeByte
      split
      · rfl
      · simp
        omega
    simp [this]

/-- Storing defined bytes at the offsets `0, 1, ..., n-1`, in this order, fills the first
`n` cells of the frame and leaves the others as they were. -/
theorem runStores_range (g : Nat → Nat) (n : Nat) (fr : Frame) (hn : n ≤ fr.length)
    (h31 : n ≤ 2 ^ 31) :
    runStores fr ((List.range n).map fun (j : Nat) => (((j : Int), some (g j)) : Store)) =
      some ((List.range n).map (fun (j : Nat) => some (g j)) ++ fr.drop n) := by
  induction n with
  | zero => simp [runStores]
  | succ n ih =>
    have hlt : n < fr.length := by omega
    rw [List.range_succ, List.map_append, runStores_append, ih (by omega) (by omega)]
    simp only [List.map_cons, List.map_nil, Option.some_bind, runStores, storeByte]
    have hc : (0 : Int) ≤ (n : Int) ∧
        (n : Int) < (((List.range n).map (fun j => some (g j)) ++ fr.drop n).length : Int) ∧
        (n : Int) < 2 ^ 31 := by
      refine ⟨by omega, ?_, by omega⟩
      simp only [List.length_append, List.length_map, List.length_range, List.length_drop]
      omega
    rw [if_pos hc]
    simp only [Option.some_bind, Int.toNat_ofNat, Option.some.injEq]
    rw [List.set_append_right _ _ (by simp)]
    simp only [List.length_map, List.length_range, Nat.sub_self]
    rw [List.drop_eq_getElem_cons hlt, List.set_cons_zero]
    simp only [List.range_succ, List.map_append, List.map_cons, List.map_nil,
      List.append_assoc, List.singleton_append]

/-! ## The stores of the decode loop -/

theorem toInt32_lt (n : Nat) : toInt32 n < 2 ^ 31 := by
  unfold toInt32
  split <;> omega

theorem toInt32_of_lt (n : Nat) (h : n < 2 ^ 31) : toInt32 n = (n : Int) := by
  unfold toInt32
  rw [Nat.mod_eq_of_lt (by omega), if_pos h]

theorem toUint32_natCast (n : Nat) (h : n < 2 ^ 32) : toUint32 (n : Int) = n := by
  unfold toUint32
  omega

theorem flatMap_range_map {β : Type} (a b : Nat) (F : Nat → β) :
    ((List.range a).flatMap fun s => (List.range b).map fun i => F (s * b + i)) =
      (List.range (a * b)).map F := by
  induction a with
  | zero => simp
  | succ a ih =>
    rw [List.range_succ, List.flatMap_append, ih, List.flatMap_singleton, Nat.succ_mul,
      List.range_add, List.map_append, List.map_map]
    rfl

theorem pixel_index_lt (sn so s i : Nat) (hs : s < sn) (hi : i < so) :
    (s * so + i) * 3 + 3 ≤ sn * so * 3 := by
  have h1 : (s + 1) * so ≤ sn * so := Nat.mul_le_mul_right so hs
  have h2 : (s + 1) * so = s * so + so := by ring
  omega

/-- Without wrap-around the offset of lines 199 and 218 is `(strip*sampleOffset + i)*3`. -/
theorem outOffset_eq (s so i : Nat) (hi : i < so) (h : (s * so + i) * 3 < 2 ^ 31) :
    outOffset s (so : Int) (i : Int) = (((s * so + i) * 3 : Nat) : Int) := by
  have hso : so ≤ s * so + i ∨ s = 0 := by
    rcases Nat.eq_zero_or_pos s with h0 | h0
    · exact Or.inr h0
    · left
      have : 1 * so ≤ s * so := Nat.mul_le_mul_right so h0
      omega
  have hso' : so < 2 ^ 32 ∨ s = 0 := by omega
  unfold outOffset wrap32
  rcases hso' with hlt | h0
  · rw [toUint32_natCast so hlt, toUint32_natCast i (by omega)]
    rw [Nat.mod_eq_of_lt (a := s * so) (by omega), Nat.mod_eq_of_lt (a := s * so + i) (by omega),
      Nat.mod_eq_of_lt (a := (s * so + i) * 3) (by omega)]
    exact toInt32_of_lt _ h
  · subst h0
    simp only [Nat.zero_mul, Nat.zero_add] at h ⊢
    rw [toUint32_natCast i (by omega)]
    rw [Nat.zero_mod, Nat.zero_add, Nat.mod_eq_of_lt (a := i) (by omega),
      Nat.mod_eq_of_lt (a := i * 3) (by omega)]
    exact toInt32_of_lt _ h

theorem storeAt_pixel (src : Source) (so s i k : Nat) (hi : i < so) (hk : k < 3) :
    storeAt src so ((s * so + i) * 3 + k) =
      ((((s * so + i) * 3 : Nat) : Int) + (k : Int),
        (sampleHeight src s i).map fun h => byteAt h k) := by
  have h1 : ((s * so + i) * 3 + k) / 3 = s * so + i := by omega
  have h2 : ((s * so + i) * 3 + k) % 3 = k := by omega
  have h3 : (s * so + i) / so = s := by
    rw [Nat.add_comm, Nat.add_mul_div_right _ _ (by omega), Nat.div_eq_of_lt hi, Nat.zero_add]
  have h4 : (s * so + i) % so = i := by
    rw [Nat.add_comm, Nat.add_mul_mod_self_right, Nat.mod_eq_of_lt hi]
  simp only [storeAt, h1, h2, h3, h4]
  push_cast
  rfl

theorem pixelStores_eq (src : Source) (so s i : Nat) (hi : i < so)
    (h : (s * so + i) * 3 < 2 ^ 31) :
    pixelStores (outOffset s (so : Int) (i : Int)) (sampleHeight src s i) =
      (List.range 3).map fun k => storeAt src so ((s * so + i) * 3 + k) := by
  have hr : List.range 3 = [0, 1, 2] := by decide
  rw [hr, outOffset_eq s so i hi h]
  simp only [List.map_cons, List.map_nil, storeAt_pixel src so s i _ hi (by decide : 0 < 3),
    storeAt_pixel src so s i _ hi (by decide : 1 < 3),
    storeAt_pixel src so s i _ hi (by decide : 2 < 3), pixelStores, byteAt]
  simp

theorem stripStores_eq (src : Source) (so s : Nat)
    (hpc : src.planarConfig = PLANARCONFIG_CONTIG)
    (hfmt : src.sampleFormat = SAMPLEFORMAT_UINT ∨ src.sampleFormat = SAMPLEFORMAT_IEEEFP)
    (hbps : bytePerSample src.bitPerSample = 4) (hso : sampleOffset src = (so : Int)) :
    stripStores src s =
      (List.range so).flatMap fun i =>
        pixelStores (outOffset s (so : Int) (i : Int)) (sampleHeight src s i) := by
  unfold stripStores sampleHeight
  simp only [hpc, hbps, hso, Int.toNat_ofNat]
  rcases hfmt with h | h <;> simp [h]

/-- The stores of the decode loop of a supported 4-byte kind, in program order, are the
stores to the byte offsets `0, 1, 2, ...` of the frame. -/
theorem decodeStores_eq (src : Source) (so : Nat)
    (hpc : src.planarConfig = PLANARCONFIG_CONTIG)
    (hfmt : src.sampleFormat = SAMPLEFORMAT_UINT ∨ src.sampleFormat = SAMPLEFORMAT_IEEEFP)
    (hbps : bytePerSample src.bitPerSample = 4) (hso : sampleOffset src = (so : Int))
    (hN : src.stripsNumber * so * 3 ≤ 2 ^ 31) :
    decodeStores src = (List.range (src.stripsNumber * so * 3)).map (storeAt src so) := by
  unfold decodeStores
  have hs : ∀ s ∈ List.range src.stripsNumber,
      stripStores src s =
        (List.range (so * 3)).map fun m => storeAt src so (s * (so * 3) + m) := by
    intro s hs
    rw [List.mem_range] at hs
    rw [stripStores_eq src so s hpc hfmt hbps hso]
    have hi : ∀ i ∈ List.range so,
        pixelStores (outOffset s (so : Int) (i : Int)) (sampleHeight src s i) =
          (List.range 3).map fun k => (fun m => storeAt src so (s * (so * 3) + m)) (i * 3 + k) := by
      intro i hi
      rw [List.mem_range] at hi
      have hb := pixel_index_lt src.stripsNumber so s i hs hi
      rw [pixelStores_eq src so s i hi (by omega)]
      apply List.map_congr_left
      intro k _
      congr 1
      ring
    rw [List.flatMap_congr hi]
    exact flatMap_range_map so 3 (fun m => storeAt src so (s * (so * 3) + m))
  rw [List.flatMap_congr hs, flatMap_range_map, Nat.mul_assoc]

theorem decodeStores_eq_toNat (src : Source) (so : Nat)
    (hpc : src.planarConfig = PLANARCONFIG_CONTIG)
    (hfmt : src.sampleFormat = SAMPLEFORMAT_UINT ∨ src.sampleFormat = SAMPLEFORMAT_IEEEFP)
    (hbps : bytePerSample src.bitPerSample = 4) (hso : (sampleOffset src).toNat = so)
    (hN : src.stripsNumber * so * 3 ≤ 2 ^ 31) :
    decodeStores src = (List.range (src.stripsNumber * so * 3)).map (storeAt src so) := by
  rcases Nat.eq_zero_or_pos so with h0 | hpos
  · subst h0
    have hs : ∀ s ∈ List.range src.stripsNumber, stripStores src s = [] := by
      intro s _
      unfold stripStores
      simp only [hso, List.range_zero, List.flatMap_nil]
      split_ifs <;> rfl
    unfold decodeStores
    rw [List.flatMap_congr hs]
    simp
  · exact decodeStores_eq src so hpc hfmt hbps (by omega) hN

theorem runStores_defined (l : List Store) (fr fr' : Frame) (h : runStores fr l = some fr') :
    ∀ st ∈ l, ∃ b, st.2 = some b := by
  induction l generalizing fr with
  | nil => simp
  | cons st rest ih =>
    simp only [runStores] at h
    cases hs : storeByte fr st with
    | none => simp [hs] at h
    | some fr1 =>
      simp only [hs, Option.some_bind] at h
      intro st' hmem
      rcases List.mem_cons.mp hmem with rfl | hmem
      · unfold storeByte at hs
        split at hs
        · simp at hs
        · rename_i b hb
          exact ⟨b, hb⟩
      · exact ih fr1 h st' hmem

theorem spec_bytes (v : Nat) :
    (v >>> 16) &&& 0xFF = byteAt v 0 ∧ (v >>> 8) &&& 0xFF = byteAt v 1 ∧
      v &&& 0xFF = byteAt v 2 := by
  have hm : (0xFF : Nat) = 2 ^ 8 - 1 := by decide
  simp only [byteAt, heightBytes_eq, hm, Nat.and_pow_two_sub_one_eq_mod,
    Nat.shiftRight_eq_div_pow]
  simp

/-- C1 (amended): for every contiguous source of unsigned 32-bit samples (the decode loop
is only reached when it is single-band with `rowsPerStrip = 1`) whose
`stripsNumber * samplesPerStrip` pixels fit the frame the program allocates and whose byte
offsets fit a C `int` (`stripsNumber*samplesPerStrip*3 <= allocSize` and `<= 2^31`), for
every strip `s < stripsNumber` and sample `i < samplesPerStrip = stripSize / bytesPerSample`
the output frame holds after the decode loop, at the byte offsets
`(s*samplesPerStrip + i)*3`, `+1`, `+2`, the values `(v>>16)&0xFF`, `(v>>8)&0xFF`, `v&0xFF`
of sample `v`, strips in source row order; and the 2x2 raster `[0, 256, 65536, 16777215]`
gives the pixels `(0,0,0)`, `(0,1,0)`, `(1,0,0)`, `(255,255,255)`. -/
theorem uint32_strips_decode_in_row_order (src : Source)
    (hpc : src.planarConfig = PLANARCONFIG_CONTIG)
    (hfmt : src.sampleFormat = SAMPLEFORMAT_UINT)
    (hbps : bytePerSample src.bitPerSample = 4)
    (hfit : src.stripsNumber * (sampleOffset src).toNat * 3 ≤
      allocSize src.imageWidth src.imageLength)
    (h31 : src.stripsNumber * (sampleOffset src).toNat * 3 ≤ 2 ^ 31) :
    DecodesUint32 src ∧
    decodeFrame scenarioA =
      some ([0, 0, 0, 0, 1, 0, 1, 0, 0, 255, 255, 255].map some) := by
  refine ⟨?_, by decide⟩
  have hd := decodeStores_eq_toNat src _ hpc (Or.inl hfmt) hbps rfl h31
  have hst : ∀ j : Nat, storeAt src (sampleOffset src).toNat j =
      (((j : Int), some (byteAt (src.stripWord (j / 3 / (sampleOffset src).toNat)
        (j / 3 % (sampleOffset src).toNat)) (j % 3))) : Store) := by
    intro j
    simp [storeAt, sampleHeight, hfmt]
  have hfun : storeAt src (sampleOffset src).toNat = fun (j : Nat) =>
      (((j : Int), some (byteAt (src.stripWord (j / 3 / (sampleOffset src).toNat)
        (j / 3 % (sampleOffset src).toNat)) (j % 3))) : Store) := funext hst
  unfold DecodesUint32 decodeFrame
  rw [hd, hfun, runStores_range _ _ _ (by simpa using hfit) h31]
  refine ⟨_, rfl, ?_⟩
  intro s i hs hi
  have hi' : i < (sampleOffset src).toNat := by omega
  have hb := pixel_index_lt src.stripsNumber _ s i hs hi'
  have h3 := storeAt_pixel src (sampleOffset src).toNat s i
  have hidx : ∀ k : Nat, k < 3 →
      ((List.range (src.stripsNumber * (sampleOffset src).toNat * 3)).map
          (fun (j : Nat) => some (byteAt (src.stripWord (j / 3 / (sampleOffset src).toNat)
            (j / 3 % (sampleOffset src).toNat)) (j % 3))) ++
        List.drop (src.stripsNumber * (sampleOffset src).toNat * 3)
          (List.replicate (allocSize src.imageWidth src.imageLength) none))[
            (s * (sampleOffset src).toNat + i) * 3 + k]? =
        some (some (byteAt (src.stripWord s i) k)) := by
    intro k hk
    have hlt : (s * (sampleOffset src).toNat + i) * 3 + k <
        src.stripsNumber * (sampleOffset src).toNat * 3 := by omega
    rw [List.getElem?_append_left (by simpa using hlt), List.getElem?_map,
      List.getElem?_range hlt]
    have h1 : ((s * (sampleOffset src).toNat + i) * 3 + k) / 3 =
        s * (sampleOffset src).toNat + i := by omega
    have h2 : ((s * (sampleOffset src).toNat + i) * 3 + k) % 3 = k := by omega
    have h3 : (s * (sampleOffset src).toNat + i) / (sampleOffset src).toNat = s := by
      rw [Nat.add_comm, Nat.add_mul_div_right _ _ (by omega), Nat.div_eq_of_lt hi',
        Nat.zero_add]
    have h4 : (s * (sampleOffset src).toNat + i) % (sampleOffset src).toNat = i := by
      rw [Nat.add_comm, Nat.add_mul_mod_self_right, Nat.mod_eq_of_lt hi']
    simp only [Option.map_some', h1, h2, h3, h4]
  obtain ⟨e0, e1, e2⟩ := spec_bytes (src.stripWord s i)
  rw [e0, e1, e2]
  exact ⟨by simpa using hidx 0 (by decide), hidx 1 (by decide), hidx 2 (by decide)⟩

/-- Witness of C1 (amended) at the Scenario A raster. -/
theorem uint32_strips_decode_in_row_order_witness :
    DecodesUint32 scenarioA ∧
    decodeFrame scenarioA =
      some ([0, 0, 0, 0, 1, 0, 1, 0, 0, 255, 255, 255].map some) :=
  uint32_strips_decode_in_row_order scenarioA (by decide) (by decide) (by decide)
    (by decide) (by decide)

/-- C1 as stated fails: the 65536 x 65536 raster of unsigned 32-bit samples is contiguous,
single-band, with one row per strip, but the frame allocated for it has
`65536*65536*3 mod 2^32 = 0` bytes, so the first store of the decode loop is outside the
allocation and no output frame holds the decoded samples. -/
theorem uint32_decode_fails_on_huge_raster :
    hugeSource.InRange ∧
    hugeSource.planarConfig = PLANARCONFIG_CONTIG ∧
    hugeSource.sampleFormat = SAMPLEFORMAT_UINT ∧
    bytePerSample hugeSource.bitPerSample = 4 ∧
    hugeSource.samplePerPixel = 1 ∧ hugeSource.rowsPerStrip = 1 ∧
    allocSize hugeSource.imageWidth hugeSource.imageLength = 0 ∧
    decodeFrame hugeSource = none ∧
    ¬ DecodesUint32 hugeSource := by
  have hnone : decodeFrame hugeSource = none := by
    unfold decodeFrame
    have ha : allocSize hugeSource.imageWidth hugeSource.imageLength = 0 := by decide
    rw [ha, List.replicate_zero]
    apply runStores_nil_frame
    have hmem : ((0 : Int), some 0) ∈ decodeStores hugeSource := by
      unfold decodeStores
      rw [List.mem_flatMap]
      refine ⟨0, List.mem_range.mpr (by decide), ?_⟩
      rw [stripStores_eq hugeSource 65536 0 (by decide) (Or.inl (by decide)) (by decide)
        (by decide), List.mem_flatMap]
      refine ⟨0, List.mem_range.mpr (by decide), ?_⟩
      decide
    exact List.ne_nil_of_mem hmem
  refine ⟨?_, by decide, by decide, by decide, by decide, by decide, by decide, hnone, ?_⟩
  · unfold Source.InRange
    refine ⟨by decide, by decide, by decide, by decide, by decide, by decide, by decide,
      by decide, by decide, by decide, ?_⟩
    intro s i
    show (0 : Nat) < 2 ^ 32
    decide
  · rintro ⟨fr, hfr, _⟩
    rw [hnone] at hfr
    exact Option.noConfusion hfr

theorem toInt32_le (n : Nat) : toInt32 n ≤ (n : Int) := by
  unfold toInt32
  split <;> omega

/-- C10: for every single-band contiguous source with `rowsPerStrip = 1`,
`stripsNumber = height`, `stripSize = width * bytesPerSample`, a supported sample kind
(4-byte unsigned or 4-byte float) and `width*height*3 < 2^31`: the frame has
`width*height*3` bytes; the indices the decode loop stores to are, in program order,
exactly `0, 1, ..., width*height*3 - 1` (each index of the frame once, none outside it);
the 32-bit value `(strip*samplesPerStrip + i)*3 + k` is computed without wrap-around;
every sample read lies inside the strip buffer; distinct `(strip, i, k)` give distinct
indices; whenever the loop completes, no byte of the frame is left uninitialised; and the
loop completes when every sample has a defined height (always so for unsigned samples). -/
theorem decode_loop_index_safety (src : Source)
    (_hspp : src.samplePerPixel = 1) (_hrps : src.rowsPerStrip = 1)
    (hpc : src.planarConfig = PLANARCONFIG_CONTIG)
    (hfmt : src.sampleFormat = SAMPLEFORMAT_UINT ∨ src.sampleFormat = SAMPLEFORMAT_IEEEFP)
    (hbps : bytePerSample src.bitPerSample = 4)
    (hsn : src.stripsNumber = src.imageLength)
    (hss : src.stripSize = src.imageWidth * bytePerSample src.bitPerSample)
    (h31 : src.imageWidth * src.imageLength * 3 < 2 ^ 31) :
    allocSize src.imageWidth src.imageLength = src.imageWidth * src.imageLength * 3 ∧
    (decodeStores src).map Prod.fst =
      (List.range (src.imageWidth * src.imageLength * 3)).map Int.ofNat ∧
    (∀ s i k : Nat, s < src.stripsNumber → (i : Int) < sampleOffset src → k < 3 →
      outOffset s (sampleOffset src) i + k = (((s * src.imageWidth + i) * 3 + k : Nat) : Int) ∧
      (s * src.imageWidth + i) * 3 + k < src.imageWidth * src.imageLength * 3) ∧
    (∀ i : Nat, (i : Int) < sampleOffset src → 4 * i + 4 ≤ src.stripSize) ∧
    (∀ s i k s' i' k' : Nat, s < src.stripsNumber → (i : Int) < sampleOffset src → k < 3 →
      s' < src.stripsNumber → (i' : Int) < sampleOffset src → k' < 3 →
      outOffset s (sampleOffset src) i + k = outOffset s' (sampleOffset src) i' + k' →
      s = s' ∧ i = i' ∧ k = k') ∧
    (∀ fr : Frame, decodeFrame src = some fr →
      fr.length = src.imageWidth * src.imageLength * 3 ∧
      ∀ j : Nat, j < src.imageWidth * src.imageLength * 3 → ∃ b, fr[j]? = some (some b)) ∧
    ((∀ s i : Nat, s < src.stripsNumber → i < src.imageWidth →
        ∃ h, sampleHeight src s i = some h) →
      ∃ fr : Frame, decodeFrame src = some fr) := by
  have hso0 : sampleOffset src = toInt32 src.imageWidth := by
    unfold sampleOffset
    rw [hss, hbps, Nat.mul_div_cancel _ (by decide : 0 < 4)]
  have halloc : allocSize src.imageWidth src.imageLength =
      src.imageWidth * src.imageLength * 3 := by
    unfold allocSize wrap32 OUT_SAMPLEPERPIXEL
    rw [Nat.mod_eq_of_lt (a := src.imageWidth * src.imageLength) (by omega), Nat.mul_one]
    exact Nat.mod_eq_of_lt (by omega)
  -- with at least one row the width is below `2^31` and is the number of samples per strip
  have hw : 0 < src.imageLength → src.imageWidth < 2 ^ 31 ∧
      sampleOffset src = (src.imageWidth : Int) := by
    intro hpos
    have h1 : src.imageWidth * 1 ≤ src.imageWidth * src.imageLength :=
      Nat.mul_le_mul_left _ hpos
    have h2 : src.imageWidth < 2 ^ 31 := by omega
    exact ⟨h2, by rw [hso0]; exact toInt32_of_lt _ h2⟩
  have hN : src.stripsNumber * (sampleOffset src).toNat * 3 =
      src.imageWidth * src.imageLength * 3 := by
    rw [hsn]
    rcases Nat.eq_zero_or_pos src.imageLength with h0 | hpos
    · rw [h0]; simp
    · rw [(hw hpos).2, Int.toNat_ofNat, Nat.mul_comm src.imageLength]
  have hd := decodeStores_eq_toNat src _ hpc hfmt hbps rfl (by omega)
  rw [hN] at hd
  have hoff : ∀ s i k : Nat, s < src.stripsNumber → (i : Int) < sampleOffset src → k < 3 →
      outOffset s (sampleOffset src) i + k = (((s * src.imageWidth + i) * 3 + k : Nat) : Int) ∧
      (s * src.imageWidth + i) * 3 + k < src.imageWidth * src.imageLength * 3 := by
    intro s i k hs hi hk
    have hpos : 0 < src.imageLength := by omega
    obtain ⟨_, hso⟩ := hw hpos
    rw [hso] at hi ⊢
    have hi' : i < src.imageWidth := by omega
    have hb := pixel_index_lt src.stripsNumber src.imageWidth s i hs hi'
    rw [hsn, Nat.mul_comm src.imageLength] at hb
    rw [outOffset_eq s src.imageWidth i hi' (by omega)]
    exact ⟨by push_cast; rfl, by omega⟩
  refine ⟨halloc, ?_, hoff, ?_, ?_, ?_, ?_⟩
  · rw [hd, List.map_map]
    apply List.map_congr_left
    intro j _
    rfl
  · intro i hi
    have := toInt32_le src.imageWidth
    rw [hss, hbps]
    rw [hso0] at hi
    omega
  · intro s i k s' i' k' hs hi hk hs' hi' hk' heq
    obtain ⟨e1, _⟩ := hoff s i k hs hi hk
    obtain ⟨e2, _⟩ := hoff s' i' k' hs' hi' hk'
    rw [e1, e2] at heq
    have heq' : (s * src.imageWidth + i) * 3 + k = (s' * src.imageWidth + i') * 3 + k' := by
      exact_mod_cast heq
    have hpos : 0 < src.imageLength := by omega
    obtain ⟨_, hso⟩ := hw hpos
    rw [hso] at hi hi'
    have hiw : i < src.imageWidth := by omega
    have hiw' : i' < src.imageWidth := by omega
    have hk_eq : k = k' := by omega
    have hp : s * src.imageWidth + i = s' * src.imageWidth + i' := by omega
    have hs_eq : s = s' := by
      have h3 : (s * src.imageWidth + i) / src.imageWidth = s := by
        rw [Nat.add_comm, Nat.add_mul_div_right _ _ (by omega), Nat.div_eq_of_lt hiw,
          Nat.zero_add]
      have h4 : (s' * src.imageWidth + i') / src.imageWidth = s' := by
        rw [Nat.add_comm, Nat.add_mul_div_right _ _ (by omega), Nat.div_eq_of_lt hiw',
          Nat.zero_add]
      rw [← h3, ← h4, hp]
    subst hs_eq
    exact ⟨rfl, by omega, hk_eq⟩
  · intro fr hfr
    unfold decodeFrame at hfr
    have hlen := runStores_length _ _ _ hfr
    rw [List.length_replicate, halloc] at hlen
    refine ⟨hlen, ?_⟩
    have hdef := runStores_defined _ _ _ hfr
    rw [hd] at hfr hdef
    have hg : ∀ j ∈ List.range (src.imageWidth * src.imageLength * 3),
        storeAt src (sampleOffset src).toNat j =
          (fun (j : Nat) => (((j : Int),
            some (((storeAt src (sampleOffset src).toNat j).2).getD 0)) : Store)) j := by
      intro j hj
      obtain ⟨b, hb⟩ := hdef _ (List.mem_map_of_mem _ hj)
      apply Prod.ext
      · rfl
      · show (storeAt src (sampleOffset src).toNat j).2 =
          some (((storeAt src (sampleOffset src).toNat j).2).getD 0)
        rw [hb]
        rfl
    rw [List.map_congr_left hg, runStores_range _ _ _ (by simp [halloc]) (by omega)] at hfr
    intro j hj
    rw [← Option.some.inj hfr, List.getElem?_append_left (by simpa using hj),
      List.getElem?_map, List.getElem?_range hj]
    exact ⟨_, rfl⟩
  · intro hall
    unfold decodeFrame
    rw [hd]
    have hg : ∀ j ∈ List.range (src.imageWidth * src.imageLength * 3),
        storeAt src (sampleOffset src).toNat j =
          (fun (j : Nat) => (((j : Int),
            some (((storeAt src (sampleOffset src).toNat j).2).getD 0)) : Store)) j := by
      intro j hj
      rw [List.mem_range] at hj
      have hpos : 0 < src.imageLength := by
        rcases Nat.eq_zero_or_pos src.imageLength with h0 | hpos
        · rw [h0] at hj; simp at hj
        · exact hpos
      obtain ⟨_, hso⟩ := hw hpos
      have hwpos : 0 < src.imageWidth := by
        rcases Nat.eq_zero_or_pos src.imageWidth with h0 | hpos
        · rw [h0] at hj; simp at hj
        · exact hpos
      have hj3 : j / 3 < src.imageLength * src.imageWidth := by
        rw [Nat.mul_comm src.imageLength]; omega
      have hs : j / 3 / src.imageWidth < src.stripsNumber := by
        rw [hsn]
        exact Nat.div_lt_of_lt_mul (by rw [Nat.mul_comm]; exact hj3)
      have hi : j / 3 % src.imageWidth < src.imageWidth := Nat.mod_lt _ hwpos
      obtain ⟨h, hh⟩ := hall _ _ hs hi
      apply Prod.ext
      · rfl
      · show (storeAt src (sampleOffset src).toNat j).2 =
          some (((storeAt src (sampleOffset src).toNat j).2).getD 0)
        simp only [storeAt, hso, Int.toNat_ofNat, hh, Option.map_some', Option.getD_some]
    rw [List.map_congr_left hg, runStores_range _ _ _ (by simp [halloc]) (by omega)]
    exact ⟨_, rfl⟩

/-- Witness of C10 at the Scenario B raster (4-byte float samples). -/
theorem decode_loop_index_safety_witness :
    allocSize scenarioB.imageWidth scenarioB.imageLength = 12 ∧
    (decodeStores scenarioB).map Prod.fst = (List.range 12).map Int.ofNat :=
  have h := decode_loop_index_safety scenarioB (by decide) (by decide) (by decide)
    (Or.inr (by decide)) (by decide) (by decide) (by decide) (by decide)
  ⟨h.1, h.2.1⟩

/-! ## The writer -/

theorem stripWrites_append (l₁ l₂ : List Event) :
    stripWrites (l₁ ++ l₂) = stripWrites l₁ ++ stripWrites l₂ := by
  induction l₁ with
  | nil => rfl
  | cons e rest ih => cases e <;> simp [stripWrites, ih]

theorem stripWrites_map (l : List Nat) (f : Nat → Nat) (g : Nat → Frame) :
    stripWrites (l.map fun j => Event.writeStrip (f j) (g j)) = l.map fun j => (f j, g j) := by
  induction l with
  | nil => rfl
  | cons a rest ih => simp [stripWrites, ih]

theorem row_fits (frame : Frame) (lb n row : Nat) (h : (row + (n + 1)) * lb ≤ frame.length) :
    row * lb + lb ≤ frame.length ∧ (row + 1 + n) * lb ≤ frame.length := by
  have h1 : (row + 1) * lb ≤ (row + (n + 1)) * lb := Nat.mul_le_mul_right lb (by omega)
  have h2 : (row + 1) * lb = row * lb + lb := by ring
  have h3 : row + 1 + n = row + (n + 1) := by ring
  rw [h3]
  omega

/-- When no write fails the row loop issues one write per row, in increasing row order. -/
theorem writeRows_all_ok (writeOk : Nat → Bool) (frame : Frame) (lb : Nat) :
    ∀ n row : Nat, (row + n) * lb ≤ frame.length →
      (∀ j : Nat, j < n → writeOk (row + j) = true) →
      writeRows writeOk frame lb n row =
        some ((List.range n).map fun j => Event.writeStrip (row + j) (frameRow frame lb (row + j))) := by
  intro n
  induction n with
  | zero => intro row _ _; rfl
  | succ n ih =>
    intro row hfit hok
    obtain ⟨h1, h2⟩ := row_fits frame lb n row hfit
    have h0 : writeOk row = true := by simpa using hok 0 (by omega)
    have hrest : ∀ j : Nat, j < n → writeOk (row + 1 + j) = true := by
      intro j hj
      have := hok (j + 1) (by omega)
      rwa [show row + (j + 1) = row + 1 + j by ring] at this
    simp only [writeRows, if_pos h1, h0, if_true, ih (row + 1) h2 hrest, Option.map_some',
      List.range_succ_eq_map, List.map_cons, List.map_map, Nat.add_zero, frameRow]
    congr 2
    apply List.map_congr_left
    intro j _
    simp only [Function.comp, Nat.succ_eq_add_one]
    rw [show row + 1 + j = row + (j + 1) by ring]

/-- When strip `row + k` is the first whose write fails, the row loop issues the writes of
the rows up to it, in increasing row order, and then stops. -/
theorem writeRows_first_failure (writeOk : Nat → Bool) (frame : Frame) (lb : Nat) :
    ∀ n row k : Nat, (row + n) * lb ≤ frame.length → k < n →
      writeOk (row + k) = false → (∀ j : Nat, j < k → writeOk (row + j) = true) →
      writeRows writeOk frame lb n row =
        some (((List.range (k + 1)).map fun j =>
          Event.writeStrip (row + j) (frameRow frame lb (row + j))) ++
            [Event.printWriteBreak]) := by
  intro n
  induction n with
  | zero => intro row k _ hk; omega
  | succ n ih =>
    intro row k hfit hk hfail hok
    obtain ⟨h1, h2⟩ := row_fits frame lb n row hfit
    rcases Nat.eq_zero_or_pos k with hk0 | hkpos
    · subst hk0
      have h0 : writeOk row = false := by simpa using hfail
      simp [writeRows, if_pos h1, h0, frameRow, List.range_succ]
    · obtain ⟨k', rfl⟩ : ∃ k', k = k' + 1 := ⟨k - 1, by omega⟩
      have h0 : writeOk row = true := by simpa using hok 0 (by omega)
      have hfail' : writeOk (row + 1 + k') = false := by
        rwa [show row + 1 + k' = row + (k' + 1) by ring]
      have hrest : ∀ j : Nat, j < k' → writeOk (row + 1 + j) = true := by
        intro j hj
        have := hok (j + 1) (by omega)
        rwa [show row + (j + 1) = row + 1 + j by ring] at this
      simp only [writeRows, if_pos h1, h0, if_true,
        ih (row + 1) k' h2 (by omega) hfail' hrest, Option.map_some',
        List.range_succ_eq_map (k' + 1), List.map_cons, List.map_map, Nat.add_zero, frameRow,
        List.cons_append]
      congr 3
      apply List.map_congr_left
      intro j _
      simp only [Function.comp, Nat.succ_eq_add_one]
      rw [show row + 1 + j = row + (j + 1) by ring]

theorem flatMap_frameRow (frame : Frame) (lb h : Nat) :
    ((List.range h).flatMap fun r => frameRow frame lb r) = frame.take (h * lb) := by
  induction h with
  | zero => simp
  | succ h ih =>
    rw [List.range_succ, List.flatMap_append, ih, List.flatMap_singleton, Nat.succ_mul,
      List.take_add]
    rfl

theorem exists_first_failure (writeOk : Nat → Bool) (h : Nat)
    (hex : ¬ ∀ r : Nat, r < h → writeOk r = true) :
    ∃ k : Nat, k < h ∧ writeOk k = false ∧ ∀ r : Nat, r < k → writeOk r = true := by
  induction h with
  | zero => exact absurd (fun r hr => absurd hr (Nat.not_lt_zero r)) hex
  | succ h ih =>
    by_cases hall : ∀ r : Nat, r < h → writeOk r = true
    · refine ⟨h, by omega, ?_, hall⟩
      cases hw : writeOk h with
      | false => rfl
      | true =>
        exfalso
        apply hex
        intro r hr
        rcases Nat.lt_succ_iff_lt_or_eq.mp hr with h1 | h1
        · exact hall r h1
        · rw [h1]; exact hw
    · obtain ⟨k, hk, hf, hb⟩ := ih hall
      exact ⟨k, by omega, hf, hb⟩

/-- The events of `writeOutputStrips` once the destination is open. -/
theorem writeOutputStrips_open (writeOk : Nat → Bool) (w h : Nat) (frame : Frame)
    (stripSize rowsPerStrip : Nat) (evs : List Event)
    (hrows : writeRows writeOk frame (wrap32 (OUT_SAMPLEPERPIXEL * w)) h 0 = some evs) :
    writeOutputStrips true writeOk w h frame stripSize rowsPerStrip =
      some (Event.openOutput :: setOutputTags w h rowsPerStrip ++ evs ++
        [Event.closeOutput]) := by
  simp only [writeOutputStrips, if_true, hrows, Option.map_some']

theorem stripWrites_writer (w h rowsPerStrip : Nat) (evs : List Event) :
    stripWrites (Event.openOutput :: setOutputTags w h rowsPerStrip ++ evs ++
      [Event.closeOutput]) = stripWrites evs := by
  rw [stripWrites_append, List.cons_append]
  simp [stripWrites, stripWrites_append, setOutputTags]

theorem lineBytes_eq (w h : Nat) (hfit : w * h * 3 < 2 ^ 32) (hpos : 0 < h) :
    wrap32 (OUT_SAMPLEPERPIXEL * w) = 3 * w := by
  have h1 : w * 1 ≤ w * h := Nat.mul_le_mul_left _ hpos
  unfold wrap32 OUT_SAMPLEPERPIXEL
  exact Nat.mod_eq_of_lt (by omega)

/-- The events of the writer when no strip write fails. -/
theorem writer_all_ok (writeOk : Nat → Bool) (w h : Nat) (frame : Frame)
    (stripSize rowsPerStrip : Nat) (hlen : frame.length = w * h * 3)
    (hfit : frame.length < 2 ^ 32) (hok : ∀ r : Nat, r < h → writeOk r = true) :
    writeOutputStrips true writeOk w h frame stripSize rowsPerStrip =
      some (Event.openOutput :: setOutputTags w h rowsPerStrip ++
        ((List.range h).map fun r => Event.writeStrip r (frameRow frame (3 * w) r)) ++
        [Event.closeOutput]) := by
  apply writeOutputStrips_open
  rcases Nat.eq_zero_or_pos h with h0 | hpos
  · subst h0; rfl
  · have hbound : (0 + h) * (3 * w) ≤ frame.length := by
      rw [hlen, show (0 + h) * (3 * w) = w * h * 3 by ring]
    rw [lineBytes_eq w h (by omega) hpos, writeRows_all_ok writeOk frame (3 * w) h 0 hbound
      (fun j hj => by simpa using hok j hj)]
    simp

/-- The events of the writer when the write of strip `k` is the first to fail. -/
theorem writer_first_failure (writeOk : Nat → Bool) (w h : Nat) (frame : Frame)
    (stripSize rowsPerStrip : Nat) (hlen : frame.length = w * h * 3)
    (hfit : frame.length < 2 ^ 32) (k : Nat) (hk : k < h) (hf : writeOk k = false)
    (hb : ∀ r : Nat, r < k → writeOk r = true) :
    writeOutputStrips true writeOk w h frame stripSize rowsPerStrip =
      some (Event.openOutput :: setOutputTags w h rowsPerStrip ++
        (((List.range (k + 1)).map fun r => Event.writeStrip r (frameRow frame (3 * w) r)) ++
          [Event.printWriteBreak]) ++ [Event.closeOutput]) := by
  apply writeOutputStrips_open
  have hbound : (0 + h) * (3 * w) ≤ frame.length := by
    rw [hlen, show (0 + h) * (3 * w) = w * h * 3 by ring]
  rw [lineBytes_eq w h (by omega) (by omega),
    writeRows_first_failure writeOk frame (3 * w) h 0 k hbound hk
      (by simpa using hf) (fun j hj => by simpa using hb j hj)]
  simp

theorem stripWrites_rows (frame : Frame) (lb m : Nat) :
    stripWrites ((List.range m).map fun r => Event.writeStrip r (frameRow frame lb r)) =
      (List.range m).map fun r => (r, frameRow frame lb r) :=
  stripWrites_map (List.range m) (fun r => r) (fun r => frameRow frame lb r)

theorem stripWrites_rows_break (frame : Frame) (lb m : Nat) :
    stripWrites (((List.range m).map fun r => Event.writeStrip r (frameRow frame lb r)) ++
      [Event.printWriteBreak]) = (List.range m).map fun r => (r, frameRow frame lb r) := by
  rw [stripWrites_append, stripWrites_rows]
  simp [stripWrites]

/-- C5: for every output frame of `width*height*3` bytes (the frame being the allocation
of line 173), once the destination is open `writeOutputStrips` issues the strip writes for
the strip indices `0, 1, 2, ...` in increasing order, strip `r` carrying exactly the
`3*width` bytes `frame[r*3*width .. (r+1)*3*width)` (row `r`, no vertical flip); when no
write fails exactly `height` strips are written, whatever the source strip layout
(`stripSize`, `rowsPerStrip`), and their concatenation is the frame; when the write of
strip `k` is the first to fail, the strips written are those of indices `0..k` and none
with a greater index. -/
theorem writer_emits_rows_in_order (writeOk : Nat → Bool) (w h : Nat) (frame : Frame)
    (stripSize rowsPerStrip : Nat) (halloc : frame.length = allocSize w h)
    (hlen : frame.length = w * h * 3) :
    ∃ evs : List Event,
      writeOutputStrips true writeOk w h frame stripSize rowsPerStrip = some evs ∧
      (∃ m : Nat, m ≤ h ∧
        stripWrites evs = (List.range m).map fun r => (r, frameRow frame (3 * w) r)) ∧
      (∀ p ∈ stripWrites evs, p.2.length = 3 * w) ∧
      ((∀ r : Nat, r < h → writeOk r = true) →
        stripWrites evs = ((List.range h).map fun r => (r, frameRow frame (3 * w) r)) ∧
        (stripWrites evs).length = h ∧
        (stripWrites evs).flatMap Prod.snd = frame) ∧
      (∀ k : Nat, k < h → writeOk k = false → (∀ r : Nat, r < k → writeOk r = true) →
        stripWrites evs = ((List.range (k + 1)).map fun r => (r, frameRow frame (3 * w) r)) ∧
        ∀ p ∈ stripWrites evs, p.1 ≤ k) := by
  have hfit : frame.length < 2 ^ 32 := by
    rw [halloc]
    unfold allocSize wrap32
    rw [Nat.mul_one]
    exact Nat.mod_lt _ (by decide)
  have hrowlen : ∀ (l : List (Nat × Frame)) (m : Nat), m ≤ h →
      l = ((List.range m).map fun r => (r, frameRow frame (3 * w) r)) →
      ∀ p ∈ l, p.2.length = 3 * w := by
    intro l m hm hl p hp
    rw [hl, List.mem_map] at hp
    obtain ⟨r, hr, rfl⟩ := hp
    rw [List.mem_range] at hr
    have h1 : (r + 1) * (3 * w) ≤ h * (3 * w) := Nat.mul_le_mul_right _ (by omega)
    have h2 : h * (3 * w) = w * h * 3 := by ring
    have h3 : (r + 1) * (3 * w) = r * (3 * w) + 3 * w := by ring
    show (frameRow frame (3 * w) r).length = 3 * w
    unfold frameRow
    rw [List.length_take, List.length_drop]
    omega
  by_cases hok : ∀ r : Nat, r < h → writeOk r = true
  · have hall1 := writer_all_ok writeOk w h frame stripSize rowsPerStrip hlen hfit hok
    have hall2 := stripWrites_writer w h rowsPerStrip
      ((List.range h).map fun r => Event.writeStrip r (frameRow frame (3 * w) r))
    rw [stripWrites_rows] at hall2
    refine ⟨_, hall1, ⟨h, le_refl h, hall2⟩, hrowlen _ h (le_refl h) hall2, ?_, ?_⟩
    · intro _
      refine ⟨hall2, by rw [hall2]; simp, ?_⟩
      rw [hall2, List.flatMap_def, List.map_map]
      have := flatMap_frameRow frame (3 * w) h
      rw [List.flatMap_def] at this
      rw [show (Prod.snd ∘ fun r => (r, frameRow frame (3 * w) r)) =
        fun r => frameRow frame (3 * w) r from rfl, this]
      exact List.take_of_length_le (by rw [hlen, show h * (3 * w) = w * h * 3 by ring])
    · intro k hk hf _
      rw [hok k hk] at hf
      exact Bool.noConfusion hf
  · obtain ⟨k, hk, hf, hb⟩ := exists_first_failure writeOk h hok
    have hall1 := writer_first_failure writeOk w h frame stripSize rowsPerStrip hlen hfit
      k hk hf hb
    have hall2 := stripWrites_writer w h rowsPerStrip
      (((List.range (k + 1)).map fun r => Event.writeStrip r (frameRow frame (3 * w) r)) ++
        [Event.printWriteBreak])
    rw [stripWrites_rows_break] at hall2
    refine ⟨_, hall1, ⟨k + 1, by omega, hall2⟩, hrowlen _ (k + 1) (by omega) hall2,
      fun h' => absurd h' hok, ?_⟩
    intro k' hk' hf' hb'
    have hkk : k' = k := by
      rcases Nat.lt_trichotomy k' k with h1 | h1 | h1
      · rw [hb k' h1] at hf'; exact Bool.noConfusion hf'
      · exact h1
      · rw [hb' k h1] at hf; exact Bool.noConfusion hf
    subst hkk
    refine ⟨hall2, ?_⟩
    intro p hp
    rw [hall2, List.mem_map] at hp
    obtain ⟨r, hr, rfl⟩ := hp
    rw [List.mem_range] at hr
    show r ≤ k'
    omega

/-- Witness of C5: the Scenario A frame, strip 1 being the first whose write fails. -/
theorem writer_emits_rows_in_order_witness :
    ∃ evs : List Event,
      writeOutputStrips true (fun r => decide (r < 1)) 2 2
        ([0, 0, 0, 0, 1, 0, 1, 0, 0, 255, 255, 255].map some) 8 1 = some evs ∧
      stripWrites evs = [(0, [0, 0, 0, 0, 1, 0].map some), (1, [1, 0, 0, 255, 255, 255].map some)] := by
  obtain ⟨evs, h1, _, _, _, h4⟩ := writer_emits_rows_in_order (fun r => decide (r < 1)) 2 2
    ([0, 0, 0, 0, 1, 0, 1, 0, 0, 255, 255, 255].map some) 8 1 (by decide) (by decide)
  refine ⟨evs, h1, ?_⟩
  rw [(h4 1 (by decide) (by decide) (by decide)).1]
  decide

/-! ## Runs of `main` -/

theorem allocSize_eq (w h : Nat) (hfit : w * h * 3 < 2 ^ 32) : allocSize w h = w * h * 3 := by
  unfold allocSize wrap32 OUT_SAMPLEPERPIXEL
  rw [Nat.mod_eq_of_lt (a := w * h) (by omega), Nat.mul_one]
  exact Nat.mod_eq_of_lt hfit

theorem stripWrites_reads (l : List Nat) : stripWrites (l.map Event.readStrip) = [] := by
  induction l with
  | nil => rfl
  | cons a rest ih => simp [stripWrites, ih]

/-- A run that passes the precondition checks with at least one strip and a non-zero sample
width decodes, then calls the writer, then returns 0. -/
theorem main_strip_path (env : Env) (hargc : env.argc = 3) (hin : env.inOpens = true)
    (hspp : env.src.samplePerPixel = 1) (hrps : env.src.rowsPerStrip = 1)
    (hsn : 0 < env.src.stripsNumber) (hbps : bytePerSample env.src.bitPerSample ≠ 0)
    (fr : Frame) (hdec : decodeFrame env.src = some fr) (evs : List Event)
    (hw : writeOutputStrips env.outOpens env.writeOk env.src.imageWidth env.src.imageLength
      fr env.src.stripSize env.src.rowsPerStrip = some evs) :
    main env = ⟨Status.exit 0,
      [Event.printGeometry, Event.printLayout] ++
        [Event.printStripBytes, Event.printStripped] ++
        (List.range env.src.stripsNumber).map Event.readStrip ++ evs⟩ := by
  rw [hrps] at hw
  unfold main
  simp only [hargc, hin, hspp, hrps, hsn, hbps, hdec, hw, ne_eq, not_true_eq_false, if_false,
    if_true, Bool.true_eq_false]

/-- Whenever `main` returns, it returns 0, except for the usage error. -/
theorem main_exit_code (env : Env) (c : Int) (h : (main env).status = Status.exit c) :
    c = 0 ∨ (c = -1 ∧ env.argc ≠ 3) := by
  unfold main at h
  simp only at h
  split at h
  · rename_i hargc
    simp only [Status.exit.injEq] at h
    exact Or.inr ⟨h.symm, hargc⟩
  · left
    split_ifs at h
    all_goals first
      | (simp only [Status.exit.injEq] at h; exact h.symm)
      | (exact Status.noConfusion h)
      | (split at h
         · exact Status.noConfusion h
         · split at h
           · exact Status.noConfusion h
           · simp only [Status.exit.injEq] at h; exact h.symm)

theorem stripWrites_main_events (sn : Nat) (evs : List Event) :
    stripWrites ([Event.printGeometry, Event.printLayout] ++
        [Event.printStripBytes, Event.printStripped] ++
        (List.range sn).map Event.readStrip ++ evs) = stripWrites evs := by
  rw [stripWrites_append, stripWrites_append, stripWrites_reads]
  simp [stripWrites]

theorem stripStores_unsupported (src : Source) (s : Nat)
    (hun : ¬ (src.planarConfig = PLANARCONFIG_CONTIG ∧
      (src.sampleFormat = SAMPLEFORMAT_UINT ∨ src.sampleFormat = SAMPLEFORMAT_IEEEFP) ∧
      bytePerSample src.bitPerSample = 4)) :
    stripStores src s = [] := by
  by_cases h1 : src.planarConfig = PLANARCONFIG_CONTIG
  · have hA : ¬ (src.sampleFormat = SAMPLEFORMAT_UINT ∧ bytePerSample src.bitPerSample = 4) :=
      fun h => hun ⟨h1, Or.inl h.1, h.2⟩
    have hB : ¬ (src.sampleFormat = SAMPLEFORMAT_IEEEFP ∧
        bytePerSample src.bitPerSample = 4) :=
      fun h => hun ⟨h1, Or.inr h.1, h.2⟩
    simp only [stripStores, h1, hA, hB, if_true, if_false]
    split_ifs <;> rfl
  · simp only [stripStores, h1, if_false]

theorem decodeStores_unsupported (src : Source)
    (hun : ¬ (src.planarConfig = PLANARCONFIG_CONTIG ∧
      (src.sampleFormat = SAMPLEFORMAT_UINT ∨ src.sampleFormat = SAMPLEFORMAT_IEEEFP) ∧
      bytePerSample src.bitPerSample = 4)) :
    decodeStores src = [] := by
  unfold decodeStores
  rw [List.flatMap_congr fun s _ => stripStores_unsupported src s hun]
  simp

theorem frameRow_replicate (n lb r : Nat) (h : (r + 1) * lb ≤ n) :
    frameRow (List.replicate n (none : Option Nat)) lb r = List.replicate lb none := by
  have h1 : (r + 1) * lb = r * lb + lb := by ring
  unfold frameRow
  rw [List.drop_replicate, List.take_replicate, Nat.min_eq_left (by omega)]

/-- C8: for every source descriptor with `samplesPerPixel != 1` or `rowsPerStrip != 1`,
the run is aborted at the precondition check (lines 166 and 168), having only printed the
two descriptor lines: no strip is read or decoded, the destination is never opened and no
destination tag or strip is written. -/
theorem precondition_violation_aborts (env : Env) (hargc : env.argc = 3)
    (hin : env.inOpens = true)
    (hpre : env.src.samplePerPixel ≠ 1 ∨ env.src.rowsPerStrip ≠ 1) :
    main env = ⟨Status.aborted, [Event.printGeometry, Event.printLayout]⟩ ∧
    ∀ e ∈ (main env).events,
      (∀ s, e ≠ Event.readStrip s) ∧ e ≠ Event.openOutput ∧
      (∀ t v, e ≠ Event.setField t v) ∧ (∀ t, e ≠ Event.setGeoField t) ∧
      (∀ r d, e ≠ Event.writeStrip r d) := by
  have hm : main env = ⟨Status.aborted, [Event.printGeometry, Event.printLayout]⟩ := by
    unfold main
    simp only [hargc, hin, ne_eq, not_true_eq_false, if_false, Bool.true_eq_false]
    by_cases h1 : env.src.samplePerPixel = 1
    · have h2 : ¬ env.src.rowsPerStrip = 1 := by
        rcases hpre with h | h
        · exact absurd h1 h
        · exact h
      simp only [h1, h2, not_true_eq_false, not_false_eq_true, if_false, if_true]
    · simp only [h1, not_false_eq_true, if_true]
  refine ⟨hm, ?_⟩
  rw [hm]
  intro e he
  simp only [List.mem_cons, List.mem_singleton, List.not_mem_nil, or_false] at he
  rcases he with rfl | rfl <;>
    exact ⟨fun _ h => Event.noConfusion h, fun h => Event.noConfusion h,
      fun _ _ h => Event.noConfusion h, fun _ h => Event.noConfusion h,
      fun _ _ h => Event.noConfusion h⟩

/-- Witness of C8 (Scenario C): a source with three samples per pixel. -/
theorem precondition_violation_aborts_witness :
    main ⟨3, true, { scenarioA with samplePerPixel := 3 }, true, fun _ => true⟩ =
      ⟨Status.aborted, [Event.printGeometry, Event.printLayout]⟩ :=
  (precondition_violation_aborts
    ⟨3, true, { scenarioA with samplePerPixel := 3 }, true, fun _ => true⟩
    (by decide) (by decide) (Or.inl (by decide))).1

/-- C9, the code at `bitPerSample = 12`, `1`, `7` and `32`: line 160 yields `1`, `0`, `0`
and `4`, the integer quotient by 8, where `ceil(b/8)` is `2`, `1`, `1` and `4`. -/
theorem bytePerSample_is_floor :
    bytePerSample 12 = 1 ∧ bytePerSample 1 = 0 ∧ bytePerSample 7 = 0 ∧ bytePerSample 32 = 4 :=
  ⟨by decide, by decide, by decide, by decide⟩

/-- C6 (amended): for every single-band source with `rowsPerStrip = 1`, at least one strip,
a non-zero sample width and a `(sampleFormat, bytesPerSample, planarConfig)` that is not
one of the two implemented kinds, whose frame size fits 32 bits: the decode loop performs
no store, no error is raised, `writeOutputStrips` is called on the never-filled frame and
the run returns 0; when the destination opens and no write fails, every one of the
`height` strips written consists of `3*width` never-initialised bytes. -/
theorem unsupported_kind_is_written_unfilled (env : Env) (hargc : env.argc = 3)
    (hin : env.inOpens = true) (hspp : env.src.samplePerPixel = 1)
    (hrps : env.src.rowsPerStrip = 1) (hsn : 0 < env.src.stripsNumber)
    (hbps : bytePerSample env.src.bitPerSample ≠ 0)
    (hun : ¬ (env.src.planarConfig = PLANARCONFIG_CONTIG ∧
      (env.src.sampleFormat = SAMPLEFORMAT_UINT ∨
        env.src.sampleFormat = SAMPLEFORMAT_IEEEFP) ∧
      bytePerSample env.src.bitPerSample = 4))
    (hfit : env.src.imageWidth * env.src.imageLength * 3 < 2 ^ 32) :
    decodeStores env.src = [] ∧
    decodeFrame env.src =
      some (List.replicate (env.src.imageWidth * env.src.imageLength * 3) none) ∧
    ∃ evs : List Event,
      writeOutputStrips env.outOpens env.writeOk env.src.imageWidth env.src.imageLength
        (List.replicate (env.src.imageWidth * env.src.imageLength * 3) none)
        env.src.stripSize env.src.rowsPerStrip = some evs ∧
      main env = ⟨Status.exit 0,
        [Event.printGeometry, Event.printLayout] ++
          [Event.printStripBytes, Event.printStripped] ++
          (List.range env.src.stripsNumber).map Event.readStrip ++ evs⟩ ∧
      (env.outOpens = true → (∀ r : Nat, r < env.src.imageLength → env.writeOk r = true) →
        stripWrites (main env).events =
          (List.range env.src.imageLength).map fun r =>
            (r, List.replicate (3 * env.src.imageWidth) none)) := by
  have hst := decodeStores_unsupported env.src hun
  have hdec : decodeFrame env.src =
      some (List.replicate (env.src.imageWidth * env.src.imageLength * 3) none) := by
    unfold decodeFrame
    rw [hst, allocSize_eq _ _ hfit]
    rfl
  have hlen : (List.replicate (env.src.imageWidth * env.src.imageLength * 3)
      (none : Option Nat)).length = env.src.imageWidth * env.src.imageLength * 3 :=
    List.length_replicate _ _
  have hex : ∃ evs : List Event,
      writeOutputStrips env.outOpens env.writeOk env.src.imageWidth env.src.imageLength
        (List.replicate (env.src.imageWidth * env.src.imageLength * 3) none)
        env.src.stripSize env.src.rowsPerStrip = some evs := by
    cases ho : env.outOpens with
    | false => exact ⟨_, rfl⟩
    | true =>
      by_cases hok : ∀ r : Nat, r < env.src.imageLength → env.writeOk r = true
      · exact ⟨_, writer_all_ok env.writeOk _ _ _ _ _ hlen (by rw [hlen]; exact hfit) hok⟩
      · obtain ⟨k, hk, hf, hb⟩ := exists_first_failure env.writeOk _ hok
        exact ⟨_, writer_first_failure env.writeOk _ _ _ _ _ hlen (by rw [hlen]; exact hfit)
          k hk hf hb⟩
  obtain ⟨evs, hevs⟩ := hex
  have hmain := main_strip_path env hargc hin hspp hrps hsn hbps _ hdec evs hevs
  refine ⟨hst, hdec, evs, hevs, hmain, ?_⟩
  intro ho hok
  rw [ho, writer_all_ok env.writeOk _ _ _ _ _ hlen (by rw [hlen]; exact hfit) hok] at hevs
  rw [hmain]
  show stripWrites _ = _
  rw [stripWrites_main_events, ← Option.some.inj hevs, stripWrites_writer, stripWrites_rows]
  apply List.map_congr_left
  intro r hr
  rw [List.mem_range] at hr
  have h1 : (r + 1) * (3 * env.src.imageWidth) ≤
      env.src.imageLength * (3 * env.src.imageWidth) := Nat.mul_le_mul_right _ hr
  have h2 : env.src.imageLength * (3 * env.src.imageWidth) =
      env.src.imageWidth * env.src.imageLength * 3 := by ring
  rw [frameRow_replicate _ _ _ (by omega)]

/-- Witness of C6 (amended) at the Scenario D raster of unsigned 16-bit samples. -/
theorem unsupported_kind_is_written_unfilled_witness :
    decodeStores scenarioD = [] ∧
    decodeFrame scenarioD = some (List.replicate 12 none) :=
  have h := unsupported_kind_is_written_unfilled ⟨3, true, scenarioD, true, fun _ => true⟩
    (by decide) (by decide) (by decide) (by decide) (by decide) (by decide) (by decide)
    (by decide)
  ⟨h.1, h.2.1⟩

/-- C6 as stated fails (Scenario D): for the 2x2 raster of unsigned 16-bit samples the run
returns 0 without any error and writes both destination strips from the frame the decode
loop never stored to. -/
theorem unsupported_kind_not_rejected :
    main ⟨3, true, scenarioD, true, fun _ => true⟩ =
      ⟨Status.exit 0,
        [Event.printGeometry, Event.printLayout, Event.printStripBytes,
          Event.printStripped, Event.readStrip 0, Event.readStrip 1, Event.openOutput] ++
        setOutputTags 2 2 1 ++
        [Event.writeStrip 0 (List.replicate 6 none),
          Event.writeStrip 1 (List.replicate 6 none), Event.closeOutput]⟩ := by
  decide

/-- C7 (amended): for every run that reaches the writer with the destination open and in
which the write of strip `k` is the first to fail, `writeOutputStrips` sets the tags, issues
the writes of the strips `0..k` and no write after strip `k`, prints `- WRITE BREAK -`,
closes the file (line 99) and hands nothing back to its caller (it is `void`: its whole
result is this list of actions), and `main` returns 0. -/
theorem write_failure_exits_zero (env : Env) (hargc : env.argc = 3)
    (hin : env.inOpens = true) (hspp : env.src.samplePerPixel = 1)
    (hrps : env.src.rowsPerStrip = 1) (hsn : 0 < env.src.stripsNumber)
    (hbps : bytePerSample env.src.bitPerSample ≠ 0)
    (fr : Frame) (hdec : decodeFrame env.src = some fr) (hout : env.outOpens = true)
    (hfit : env.src.imageWidth * env.src.imageLength * 3 < 2 ^ 32)
    (k : Nat) (hk : k < env.src.imageLength) (hf : env.writeOk k = false)
    (hb : ∀ r : Nat, r < k → env.writeOk r = true) :
    (main env).status = Status.exit 0 ∧
    Event.printWriteBreak ∈ (main env).events ∧
    stripWrites (main env).events =
      ((List.range (k + 1)).map fun r => (r, frameRow fr (3 * env.src.imageWidth) r)) ∧
    Event.closeOutput ∈ (main env).events ∧
    writeOutputStrips env.outOpens env.writeOk env.src.imageWidth env.src.imageLength fr
        env.src.stripSize env.src.rowsPerStrip =
      some (Event.openOutput ::
        setOutputTags env.src.imageWidth env.src.imageLength env.src.rowsPerStrip ++
        (((List.range (k + 1)).map fun r =>
            Event.writeStrip r (frameRow fr (3 * env.src.imageWidth) r)) ++
          [Event.printWriteBreak]) ++ [Event.closeOutput]) ∧
    main env = ⟨Status.exit 0,
      [Event.printGeometry, Event.printLayout] ++
        [Event.printStripBytes, Event.printStripped] ++
        (List.range env.src.stripsNumber).map Event.readStrip ++
        (Event.openOutput ::
          setOutputTags env.src.imageWidth env.src.imageLength env.src.rowsPerStrip ++
          (((List.range (k + 1)).map fun r =>
              Event.writeStrip r (frameRow fr (3 * env.src.imageWidth) r)) ++
            [Event.printWriteBreak]) ++ [Event.closeOutput])⟩ := by
  have hlen : fr.length = env.src.imageWidth * env.src.imageLength * 3 := by
    unfold decodeFrame at hdec
    rw [runStores_length _ _ _ hdec, List.length_replicate, allocSize_eq _ _ hfit]
  have hw := writer_first_failure env.writeOk env.src.imageWidth env.src.imageLength fr
    env.src.stripSize env.src.rowsPerStrip hlen (by rw [hlen]; exact hfit) k hk hf hb
  rw [← hout] at hw
  have hmain := main_strip_path env hargc hin hspp hrps hsn hbps fr hdec _ hw
  refine ⟨?_, ?_, ?_, ?_, hw, hmain⟩
  · rw [hmain]
  · rw [hmain]
    simp
  · rw [hmain]
    show stripWrites _ = _
    rw [stripWrites_main_events, stripWrites_writer, stripWrites_rows_break]
  · rw [hmain]
    simp

/-- Witness of C7 (amended): the Scenario A raster when the write of strip 0 fails. -/
theorem write_failure_exits_zero_witness :
    (main ⟨3, true, scenarioA, true, fun _ => false⟩).status = Status.exit 0 ∧
    Event.printWriteBreak ∈ (main ⟨3, true, scenarioA, true, fun _ => false⟩).events ∧
    stripWrites (main ⟨3, true, scenarioA, true, fun _ => false⟩).events =
      ((List.range (0 + 1)).map fun r =>
        (r, frameRow ([0, 0, 0, 0, 1, 0, 1, 0, 0, 255, 255, 255].map some) (3 * 2) r)) ∧
    Event.closeOutput ∈ (main ⟨3, true, scenarioA, true, fun _ => false⟩).events :=
  have h := write_failure_exits_zero ⟨3, true, scenarioA, true, fun _ => false⟩ (by decide)
    (by decide) (by decide) (by decide) (by decide) (by decide)
    ([0, 0, 0, 0, 1, 0, 1, 0, 0, 255, 255, 255].map some) (by decide) (by decide) (by decide)
    0 (by decide) (by decide) (by decide)
  ⟨h.1, h.2.1, h.2.2.1, h.2.2.2.1⟩

/-- C7 as stated fails: on the Scenario A raster, when every `TIFFWriteEncodedStrip` call
fails, the run prints `- WRITE BREAK -` after the first strip and still returns 0. -/
theorem write_failure_masked_as_success :
    main ⟨3, true, scenarioA, true, fun _ => false⟩ =
      ⟨Status.exit 0,
        [Event.printGeometry, Event.printLayout, Event.printStripBytes,
          Event.printStripped, Event.readStrip 0, Event.readStrip 1, Event.openOutput] ++
        setOutputTags 2 2 1 ++
        [Event.writeStrip 0 ([0, 0, 0, 0, 1, 0].map some), Event.printWriteBreak,
          Event.closeOutput]⟩ := by
  decide

end HMapper
